import Mathlib

/-!
# go-screenshot: a shallow embedding of `main.go`

The program enumerates the active displays and, for each of them, makes sure the
folder `img/` exists, derives a file name from the display index and the wall
clock, creates the file, captures the screen and encodes the bitmap as PNG.

The embedding is state passing.  The external collaborators (display
enumeration, clock, file system failures, capture primitive, PNG encoder) are
answers supplied by an environment `Env`; every call the program makes to one of
them is recorded, in program order, in the `trace` of the state, and the effect
on the file system is recorded in `fs`.

Go strings are lists of characters (all strings handled here are ASCII).  Go's
`int` is the 64-bit two's complement integer: the arithmetic the program does on
pixel coordinates wraps around (`wrapInt`).  Display indices run from `0` up to
the number of displays and are never incremented past it, and calendar fields
are only printed, so these are plain numbers.
-/

namespace Screenshot

/-! ## Strings and formatting -/

/-- A Go string, as the list of its bytes (ASCII only). -/
abbrev GoString := List Char

/-- The byte `'0' + d`. -/
def digitChar (d : Nat) : Char := Char.ofNat (48 + d)

/-- Decimal digits of `n`, most significant first, written in front of `acc`:
the loop `for u >= 10 { buf[i] = '0' + u%10; u /= 10 }; buf[i] = '0' + u` of
Go's integer formatting.  The first argument bounds the number of rounds. -/
def decimalAux : Nat → Nat → GoString → GoString
  | 0, _, acc => acc
  | fuel + 1, n, acc =>
    if n < 10 then digitChar n :: acc
    else decimalAux fuel (n / 10) (digitChar (n % 10) :: acc)

/-- Decimal rendering of a natural number. -/
def decimal (n : Nat) : GoString := decimalAux (n + 1) n []

/-- The verb `%d` of `fmt.Sprintf` applied to an `int`. -/
def fmtD (i : Int) : GoString :=
  if i < 0 then '-' :: decimal i.natAbs else decimal i.natAbs

/-- The helper `appendInt(b, x, width)` of package `time`: `x` in decimal,
zero-padded to `width` digits, after a minus sign when negative. -/
def appendInt (x : Int) (width : Nat) : GoString :=
  let u := x.natAbs
  let sign : GoString := if x < 0 then ['-'] else []
  if width = 2 ∧ u < 100 then
    sign ++ [digitChar (u / 10), digitChar (u % 10)]
  else if width = 4 ∧ u < 10000 then
    sign ++ [digitChar (u / 1000), digitChar (u / 100 % 10), digitChar (u / 10 % 10),
      digitChar (u % 10)]
  else
    sign ++ (List.replicate (width - (decimal u).length) '0' ++ decimal u)

/-- An instant as `time.Now()` returns it: the calendar fields of its local
representation, and `rest`, whatever `String()` prints after the seconds
(fraction, zone offset, zone name, monotonic clock reading). -/
structure Time where
  year : Int
  month : Nat
  day : Nat
  hour : Nat
  minute : Nat
  second : Nat
  rest : GoString
  month_ok : 1 ≤ month ∧ month ≤ 12
  day_ok : 1 ≤ day ∧ day ≤ 31
  hour_ok : hour < 24
  minute_ok : minute < 60
  second_ok : second < 60

/-- The method `Time.String()`: the layout
`"2006-01-02 15:04:05.999999999 -0700 MST"`. -/
def Time.String (t : Time) : GoString :=
  appendInt t.year 4 ++ '-' :: appendInt t.month 2 ++ '-' :: appendInt t.day 2 ++
    ' ' :: appendInt t.hour 2 ++ ':' :: appendInt t.minute 2 ++ ':' :: appendInt t.second 2 ++
    t.rest

/-- Whether `s` begins with `p` (`strings.HasPrefix`). -/
def startsWith : GoString → GoString → Bool
  | _, [] => true
  | [], _ :: _ => false
  | c :: cs, o :: os => c == o && startsWith cs os

/-- The call `strings.Replace(s, old, new, 1)` for a non-empty `old`: the first
occurrence of `old` in `s` is replaced by `new`. -/
def replaceFirst (old new : GoString) : GoString → GoString
  | [] => []
  | c :: cs =>
    if startsWith (c :: cs) old then new ++ (c :: cs).drop old.length
    else c :: replaceFirst old new cs

/-- The constant `folderName`. -/
def folderName : GoString := "img/".toList

/-- Lines 49-56 of `main`: the path of the output file of display `i` at the
instant `now`.  The string form of an instant has at least 19 bytes
(`Time.String_length`), so that the slice `[:19]` is its first 19 bytes. -/
def fileName (i : Int) (now : Time) : GoString :=
  let nowString := now.String.take 19
  let nowString := replaceFirst [' '] ['_'] nowString
  let nowString := replaceFirst [':'] ['H'] nowString
  let nowString := replaceFirst [':'] ['M'] nowString
  let nowString := nowString ++ ['S']
  let filePath := folderName
  filePath ++ fmtD i ++ '_' :: nowString ++ ".png".toList

/-- The value of a decimal digit byte. -/
def digitVal (c : Char) : Nat := c.toNat - 48

/-- The number a string of decimal digits denotes. -/
def parseDecimal (s : GoString) : Nat := s.foldl (fun a c => 10 * a + digitVal c) 0

/-- The two digits of a zero-padded field, as the specification words it. -/
def twoDigits (n : Nat) : GoString := [digitChar (n / 10), digitChar (n % 10)]

/-- The four digits of a zero-padded year, as the specification words it. -/
def fourDigits (n : Nat) : GoString :=
  [digitChar (n / 1000), digitChar (n / 100 % 10), digitChar (n / 10 % 10), digitChar (n % 10)]

/-- The path the specification gives for display `i` at the instant `t`:
`img/{i}_{YYYY-MM-DD}_{HH}H{MM}M{SS}S.png`. -/
def specPath (i : Nat) (t : Time) : GoString :=
  "img/".toList ++ decimal i ++ "_".toList ++
    fourDigits t.year.toNat ++ "-".toList ++ twoDigits t.month ++ "-".toList ++ twoDigits t.day ++
    "_".toList ++ twoDigits t.hour ++ "H".toList ++ twoDigits t.minute ++ "M".toList ++
    twoDigits t.second ++ "S.png".toList

/-- Two instants agree to the second. -/
def Time.sameSecond (s t : Time) : Prop :=
  s.year = t.year ∧ s.month = t.month ∧ s.day = t.day ∧ s.hour = t.hour ∧
    s.minute = t.minute ∧ s.second = t.second

/-! ## Rectangles and images -/

/-- The type `image.Point`.  The coordinates are values of Go's `int`; every
operation on them is reduced by `wrapInt`. -/
structure Point where
  X : Int
  Y : Int
  deriving DecidableEq

/-- The type `image.Rectangle`. -/
structure Rectangle where
  Min : Point
  Max : Point
  deriving DecidableEq

/-- The least value of Go's `int`, `-2^63`. -/
def minInt : Int := -9223372036854775808

/-- The greatest value of Go's `int`, `2^63 - 1`. -/
def maxInt : Int := 9223372036854775807

/-- The value Go's `int` holds for the mathematical result `x` of an operation:
`x` reduced modulo `2^64` into `-2^63 .. 2^63 - 1`. -/
def wrapInt (x : Int) : Int :=
  (x + 9223372036854775808) % 18446744073709551616 - 9223372036854775808

/-- The method `Rectangle.Dx`, `r.Max.X - r.Min.X`: the width. -/
def Rectangle.Dx (r : Rectangle) : Int := wrapInt (r.Max.X - r.Min.X)

/-- The method `Rectangle.Dy`, `r.Max.Y - r.Min.Y`: the height. -/
def Rectangle.Dy (r : Rectangle) : Int := wrapInt (r.Max.Y - r.Min.Y)

/-- The type `image.RGBA`: its bounds and its pixel bytes. -/
structure RGBA where
  Rect : Rectangle
  Pix : List Nat
  deriving DecidableEq

/-! ## The world around the program -/

/-- What `os.Stat` finds at `img/`: nothing, a folder (with its permission
bits), or something it cannot read (an error other than "does not exist"). -/
inductive FolderState
  | absent
  | present (mode : Nat)
  | unreadable
  deriving DecidableEq

/-- What an output file holds: nothing (just created or truncated), the PNG
encoding of a bitmap, or the remains of an encoding that failed. -/
inductive Content
  | empty
  | png (img : RGBA)
  | broken
  deriving DecidableEq

/-- The part of the file system the program touches: the folder `img/` and the
files in it, most recently written first. -/
structure FS where
  folder : FolderState
  files : List (GoString × Content)
  deriving DecidableEq

/-- The content of the file at `path`, if it exists. -/
def FS.read (fs : FS) (path : GoString) : Option Content := fs.files.lookup path

/-- The value `os.FileInfo` of the folder. -/
structure FileInfo where
  name : GoString
  mode : Nat
  deriving DecidableEq

/-- The calls the program makes to the outside, in program order.  A file
handle is `some path`, or `none` for the nil handle of a failed `os.Create`. -/
inductive Event
  | stat (name : GoString)
  | mkdir (name : GoString) (perm : Nat)
  | println (info : Option FileInfo)
  | create (name : GoString)
  | capture (r : Rectangle)
  | encode (file : Option GoString) (img : RGBA)
  | close (file : Option GoString)
  | fatal (msg : String)
  | panic (err : String)
  deriving DecidableEq

/-- How the process ends: `main` returns, `log.Fatal` exits, or a panic. -/
inductive Outcome
  | returned
  | fatal (msg : String)
  | panic (err : String)
  deriving DecidableEq

/-- The answers of the external collaborators.  Each of them is called at most
once per display, so an answer is indexed by the display index of the call. -/
structure Env where
  /-- The result of `screenshot.NumActiveDisplays()`. -/
  NumActiveDisplays : Int
  /-- The result of `screenshot.GetDisplayBounds(i)`. -/
  GetDisplayBounds : Nat → Rectangle
  /-- The result of `time.Now()` in the iteration of display `i`. -/
  Now : Nat → Time
  /-- Whether `os.Mkdir` fails in the iteration of display `i`. -/
  MkdirFails : Nat → Bool
  /-- The file mode creation mask of the process. -/
  Umask : Nat
  /-- Whether `os.Create` fails in the iteration of display `i`. -/
  CreateFails : Nat → Bool
  /-- The result of `screenshot.CaptureRect(r)` in the iteration of display `i`. -/
  CaptureRect : Nat → Rectangle → Except String RGBA
  /-- Whether writing the PNG stream fails in the iteration of display `i`. -/
  EncodeFails : Nat → Bool

/-- The state of a run: the file system, the calls made so far, and the stack
of handles whose `Close` is deferred (most recent first). -/
structure State where
  fs : FS
  trace : List Event
  deferred : List (Option GoString)
  deriving DecidableEq

/-- Record a call. -/
def State.emit (st : State) (e : Event) : State := { st with trace := st.trace ++ [e] }

/-- The message of the first `log.Fatal`. -/
def msgFolder : String := "Could not create img folder where screenshots are saved."

/-- The message of the second `log.Fatalln`. -/
def msgShot : String := "Could not take a screenshot."

/-! ## The program -/

/-- The permission bits of a directory made by `os.Mkdir(name, perm)`: those of
`perm` that the umask does not clear (`perm &^ umask`). -/
def maskedPerm (perm umask : Nat) : Nat := perm &&& (perm ^^^ umask)

/-- The error of `os.Stat`, as far as `os.IsNotExist` tells. -/
inductive StatErr
  | notExist
  | other
  deriving DecidableEq

/-- The call `os.Stat(folderName)`. -/
def osStat (fs : FS) : Except StatErr FileInfo :=
  match fs.folder with
  | .absent => .error .notExist
  | .present m => .ok ⟨folderName, m⟩
  | .unreadable => .error .other

/-- Lines 29-36 of `main`: check the folder and create it when it does not
exist; the new folder has the permission bits `0755` less those of the umask.
The result is the new state and, when `log.Fatal` ended the process, the
outcome. -/
def ensureFolder (env : Env) (i : Nat) (st : State) : State × Option Outcome :=
  let st1 := st.emit (.stat folderName)
  match osStat st.fs with
  | .error .notExist =>
    let st2 := st1.emit (.mkdir folderName 0o755)
    if env.MkdirFails i then
      (st2.emit (.fatal msgFolder), some (.fatal msgFolder))
    else
      (State.emit
        { st2 with fs := { st2.fs with folder := .present (maskedPerm 0o755 env.Umask) } }
        (.println none), none)
  | .error .other => (st1.emit (.println none), none)
  | .ok folderInfo => (st1.emit (.println (some folderInfo)), none)

/-- Line 57 of `main`, `file, _ := os.Create(fileName)`: on success the file
exists and is empty, on failure the handle is nil and the error is dropped. -/
def osCreate (env : Env) (i : Nat) (name : GoString) (st : State) : State × Option GoString :=
  let st1 := st.emit (.create name)
  if env.CreateFails i then (st1, none)
  else ({ st1 with fs := { st1.fs with files := (name, Content.empty) :: st1.fs.files } },
    some name)

/-- What a call of `screenShot` does: it returns `(img, err)` or it panics. -/
inductive Shot
  | ret (img : RGBA) (err : Option String)
  | panic (err : String)
  deriving DecidableEq

/-- The function `screenShot(timestamp, captureBox)`. -/
def screenShot (env : Env) (i : Nat) (timestamp : Bool) (captureBox : Rectangle)
    (st : State) : State × Shot :=
  if timestamp then
    let st1 := st.emit (.capture captureBox)
    match env.CaptureRect i captureBox with
    | .error err => (st1, .panic err)
    | .ok img => (st1, .ret img none)
  else
    let newBounds : Rectangle := ⟨⟨0, 0⟩, ⟨captureBox.Dx, wrapInt (captureBox.Dy - 50)⟩⟩
    let st1 := st.emit (.capture newBounds)
    match env.CaptureRect i newBounds with
    | .error err => (st1, .panic err)
    | .ok img => (st1, .ret img none)

/-- Line 67 of `main`, `png.Encode(file, img)` with its error dropped: nothing
is written through a nil handle; otherwise the file holds the PNG stream, or
what a failed write left of it. -/
def pngEncode (env : Env) (i : Nat) (file : Option GoString) (img : RGBA) (st : State) : State :=
  let st1 := st.emit (.encode file img)
  match file with
  | none => st1
  | some name =>
    if env.EncodeFails i then
      { st1 with fs := { st1.fs with files := (name, Content.broken) :: st1.fs.files } }
    else
      { st1 with fs := { st1.fs with files := (name, Content.png img) :: st1.fs.files } }

/-- The deferred `file.Close()` calls, last deferred first. -/
def runDeferred (st : State) : State :=
  { st with trace := st.trace ++ st.deferred.map Event.close, deferred := [] }

/-- The body of the loop of `main` for display `i` (lines 23-67).  The second
component is `none` when the loop goes on, and the outcome when the process
ended in this iteration. -/
def iteration (env : Env) (i : Nat) (st : State) : State × Option Outcome :=
  let bounds := env.GetDisplayBounds i
  match ensureFolder env i st with
  | (st1, some out) => (st1, some out)
  | (st1, none) =>
    let name := fileName i (env.Now i)
    let created := osCreate env i name st1
    let file := created.2
    let st2 : State := { created.1 with deferred := file :: created.1.deferred }
    match screenShot env i false bounds st2 with
    | (st3, .panic err) => ((runDeferred st3).emit (.panic err), some (.panic err))
    | (st3, .ret _ (some _)) => (st3.emit (.fatal msgShot), some (.fatal msgShot))
    | (st3, .ret img none) => (pngEncode env i file img st3, none)

/-- The loop `for i := 0; i < n; i++` from index `i` on, with `k = n - i`
iterations left; when none is left `main` returns and the deferred calls run. -/
def loop (env : Env) : Nat → Nat → State → State × Outcome
  | 0, _, st => (runDeferred st, .returned)
  | k + 1, i, st =>
    match iteration env i st with
    | (st1, some out) => (st1, out)
    | (st1, none) => loop env k (i + 1) st1

/-- The function `main`, run on the file system `fs`. -/
def main (env : Env) (fs : FS) : State × Outcome :=
  loop env env.NumActiveDisplays.toNat 0 ⟨fs, [], []⟩

/-! ## Reading a trace -/

/-- The paths passed to `os.Create`, in order. -/
def createdPaths : List Event → List GoString
  | [] => []
  | .create name :: es => name :: createdPaths es
  | _ :: es => createdPaths es

/-- The rectangles passed to the capture primitive, in order. -/
def capturedRects : List Event → List Rectangle
  | [] => []
  | .capture r :: es => r :: capturedRects es
  | _ :: es => capturedRects es

/-- The calls of `os.Mkdir`, in order. -/
def mkdirCalls : List Event → List (GoString × Nat)
  | [] => []
  | .mkdir name perm :: es => (name, perm) :: mkdirCalls es
  | _ :: es => mkdirCalls es

/-- The handles passed to `png.Encode`, in order. -/
def encodedFiles : List Event → List (Option GoString)
  | [] => []
  | .encode file _ :: es => file :: encodedFiles es
  | _ :: es => encodedFiles es

/-- The rectangle `screenShot` asks for when `timestamp` is off: origin `(0,0)`,
the width of the display and its height less the 50-pixel margin, computed on
Go's `int`. -/
def trimmed (box : Rectangle) : Rectangle := ⟨⟨0, 0⟩, ⟨box.Dx, wrapInt (box.Dy - 50)⟩⟩

/-- Whether the capture of display `j` fails, that is whether the primitive
answers the rectangle `screenShot` asks for with an error. -/
def captureFails (env : Env) (j : Nat) : Bool :=
  match env.CaptureRect j (trimmed (env.GetDisplayBounds j)) with
  | .ok _ => false
  | .error _ => true

/-- The path of the output file of display `j`. -/
def pathOf (env : Env) (j : Nat) : GoString := fileName j (env.Now j)

/-- The state after `a` iterations, for the displays `i, ..., i + a - 1`. -/
def steps (env : Env) : Nat → Nat → State → State
  | 0, _, st => st
  | a + 1, i, st => steps env a (i + 1) (iteration env i st).1

/-! ## Sample worlds -/

/-- The instant 2024-03-05 14:07:22 UTC. -/
def sampleTime : Time :=
  ⟨2024, 3, 5, 14, 7, 22, " +0000 UTC".toList, by decide, by decide, by decide, by decide,
    by decide⟩

/-- Two displays side by side, 1920x1080 each. -/
def sampleBounds (i : Nat) : Rectangle :=
  if i = 0 then ⟨⟨0, 0⟩, ⟨1920, 1080⟩⟩ else ⟨⟨1920, 0⟩, ⟨3840, 1080⟩⟩

/-- A world with two displays in which nothing fails. -/
def sampleEnv : Env where
  NumActiveDisplays := 2
  GetDisplayBounds := sampleBounds
  Now := fun _ => sampleTime
  MkdirFails := fun _ => false
  Umask := 0o022
  CreateFails := fun _ => false
  CaptureRect := fun _ r => .ok ⟨r, []⟩
  EncodeFails := fun _ => false

/-- An empty working directory. -/
def emptyFS : FS := ⟨.absent, []⟩

/-- The working directory with the folder `img/` already there. -/
def presentFS : FS := ⟨.present 0o755, []⟩

/-- A world without any active display. -/
def zeroEnv : Env := { sampleEnv with NumActiveDisplays := 0 }

/-- The two displays of `sampleEnv`, with a capture primitive that always fails. -/
def captureFailEnv : Env := { sampleEnv with CaptureRect := fun _ _ => .error "capture failed" }

/-- The two displays of `sampleEnv`, where `os.Mkdir` fails. -/
def mkdirFailEnv : Env := { sampleEnv with MkdirFails := fun _ => true }

/-- The two displays of `sampleEnv`, where no file can be created or written. -/
def writeFailEnv : Env :=
  { sampleEnv with CreateFails := fun _ => true, EncodeFails := fun _ => true }

/-- The two displays of `sampleEnv`, where the capture of the second one fails. -/
def secondFailEnv : Env :=
  { sampleEnv with
    CaptureRect := fun i r => if i = 0 then .ok ⟨r, []⟩ else .error "capture failed" }

/-- The two displays of `sampleEnv`, under a umask that clears all group and
other bits. -/
def strictUmaskEnv : Env := { sampleEnv with Umask := 0o077 }

/-- The two displays of `sampleEnv`, where the file of the first display cannot
be created and the capture of the second display fails. -/
def lostFileEnv : Env := { secondFailEnv with CreateFails := fun i => decide (i = 0) }

/-- The two displays of `sampleEnv`, where no file can be created and the
capture primitive always fails. -/
def createAndCaptureFailEnv : Env := { captureFailEnv with CreateFails := fun _ => true }

/-- A rectangle whose height is the least `int`. -/
def deepBox : Rectangle := ⟨⟨0, 0⟩, ⟨0, -9223372036854775808⟩⟩

/-- A display 800 pixels wide and 40 pixels high, placed at `(10, 20)`. -/
def lowBox : Rectangle := ⟨⟨10, 20⟩, ⟨810, 60⟩⟩

/-- The instant 2024-03-05 14:07:23 UTC, one second after `sampleTime`. -/
def laterTime : Time :=
  ⟨2024, 3, 5, 14, 7, 23, " +0000 UTC".toList, by decide, by decide, by decide, by decide,
    by decide⟩

/-! ## Lemmas on formatting -/

theorem digitChar_ne (d : Nat) (h : d < 10) :
    digitChar d ≠ ' ' ∧ digitChar d ≠ ':' ∧ digitChar d ≠ '_' ∧ digitChar d ≠ '-' := by
  interval_cases d <;> decide

theorem digitVal_digitChar (d : Nat) (h : d < 10) : digitVal (digitChar d) = d := by
  interval_cases d <;> decide

theorem digitChar_inj {a b : Nat} (ha : a < 10) (hb : b < 10)
    (h : digitChar a = digitChar b) : a = b := by
  have := congrArg digitVal h
  rwa [digitVal_digitChar a ha, digitVal_digitChar b hb] at this

theorem replaceFirst_cons_eq (o : Char) (new cs : GoString) :
    replaceFirst [o] new (o :: cs) = new ++ cs := by
  cases cs <;> simp [replaceFirst, startsWith]

theorem replaceFirst_cons_ne (o c : Char) (new cs : GoString) (h : c ≠ o) :
    replaceFirst [o] new (c :: cs) = c :: replaceFirst [o] new cs := by
  cases cs <;> simp [replaceFirst, startsWith, h]

theorem appendInt_two (n : Nat) (h : n < 100) : appendInt (n : Int) 2 = twoDigits n := by
  have h0 : ¬ ((n : Int) < 0) := by omega
  simp [appendInt, twoDigits, h, h0]

theorem appendInt_four (n : Nat) (h : n < 10000) : appendInt (n : Int) 4 = fourDigits n := by
  have h0 : ¬ ((n : Int) < 0) := by omega
  simp [appendInt, fourDigits, h, h0]

/-- The three replacements turn `YYYY-MM-DD HH:MM:SS` into `YYYY-MM-DD_HHHMMMSS`. -/
theorem replace_shape (a b c d e f g h i j k l m n : Nat)
    (ha : a < 10) (hb : b < 10) (hc : c < 10) (hd : d < 10) (he : e < 10) (hf : f < 10)
    (hg : g < 10) (hh : h < 10) (hi : i < 10) (hj : j < 10) (hk : k < 10) (hl : l < 10)
    (_hm : m < 10) (_hn : n < 10) :
    replaceFirst [':'] ['M'] (replaceFirst [':'] ['H'] (replaceFirst [' '] ['_']
      [digitChar a, digitChar b, digitChar c, digitChar d, '-', digitChar e, digitChar f, '-',
        digitChar g, digitChar h, ' ', digitChar i, digitChar j, ':', digitChar k, digitChar l,
        ':', digitChar m, digitChar n])) =
      [digitChar a, digitChar b, digitChar c, digitChar d, '-', digitChar e, digitChar f, '-',
        digitChar g, digitChar h, '_', digitChar i, digitChar j, 'H', digitChar k, digitChar l,
        'M', digitChar m, digitChar n] := by
  have e1 : ('-' : Char) ≠ ' ' := by decide
  have e2 : ('-' : Char) ≠ ':' := by decide
  have e3 : ('_' : Char) ≠ ':' := by decide
  have e4 : ('H' : Char) ≠ ':' := by decide
  simp only [replaceFirst_cons_eq, replaceFirst_cons_ne, ne_eq, not_false_eq_true, e1, e2, e3,
    e4, digitChar_ne _ ha, digitChar_ne _ hb, digitChar_ne _ hc, digitChar_ne _ hd,
    digitChar_ne _ he, digitChar_ne _ hf, digitChar_ne _ hg, digitChar_ne _ hh,
    digitChar_ne _ hi, digitChar_ne _ hj, digitChar_ne _ hk, digitChar_ne _ hl,
    List.cons_append, List.nil_append,
    List.singleton_append]

/-- The file name of the code is the path of the specification. -/
theorem fileName_eq_specPath (i : Nat) (t : Time) (hy : 0 ≤ t.year ∧ t.year ≤ 9999) :
    fileName (i : Int) t = specPath i t := by
  obtain ⟨y, hyy⟩ := Int.eq_ofNat_of_zero_le hy.1
  have hy2 : y < 10000 := by omega
  have hm := t.month_ok
  have hd := t.day_ok
  have hh := t.hour_ok
  have hmi := t.minute_ok
  have hs := t.second_ok
  have hi : ¬ ((i : Int) < 0) := by omega
  have key := replace_shape (y / 1000) (y / 100 % 10) (y / 10 % 10) (y % 10)
    (t.month / 10) (t.month % 10) (t.day / 10) (t.day % 10) (t.hour / 10) (t.hour % 10)
    (t.minute / 10) (t.minute % 10) (t.second / 10) (t.second % 10)
    (by omega) (by omega) (by omega) (by omega) (by omega) (by omega) (by omega) (by omega)
    (by omega) (by omega) (by omega) (by omega) (by omega) (by omega)
  unfold fileName specPath Time.String fmtD
  rw [hyy, appendInt_four y hy2, appendInt_two t.month (by omega), appendInt_two t.day (by omega),
    appendInt_two t.hour (by omega), appendInt_two t.minute (by omega),
    appendInt_two t.second (by omega)]
  simp only [twoDigits, fourDigits, List.cons_append, List.nil_append, List.take_succ_cons,
    List.take_zero, key, hi, if_false, Int.natAbs_ofNat, Int.toNat_ofNat, folderName]
  simp

theorem mem_decimalAux (fuel n : Nat) (acc : GoString) (c : Char)
    (h : c ∈ decimalAux fuel n acc) : c ∈ acc ∨ ∃ d, d < 10 ∧ c = digitChar d := by
  induction fuel generalizing n acc with
  | zero => exact Or.inl h
  | succ fuel ih =>
    unfold decimalAux at h
    split at h
    · rcases List.mem_cons.mp h with h | h
      · exact Or.inr ⟨n, by assumption, h⟩
      · exact Or.inl h
    · rcases ih _ _ h with h | h
      · rcases List.mem_cons.mp h with h | h
        · exact Or.inr ⟨n % 10, Nat.mod_lt _ (by decide), h⟩
        · exact Or.inl h
      · exact Or.inr h

theorem mem_decimal (n : Nat) (c : Char) (h : c ∈ decimal n) :
    ∃ d, d < 10 ∧ c = digitChar d := by
  rcases mem_decimalAux _ _ _ _ h with h | h
  · cases h
  · exact h

theorem foldl_decimalAux (fuel n : Nat) (acc : GoString) (h : n < fuel) :
    List.foldl (fun a c => 10 * a + digitVal c) 0 (decimalAux fuel n acc) =
      List.foldl (fun a c => 10 * a + digitVal c) n acc := by
  induction fuel generalizing n acc with
  | zero => omega
  | succ fuel ih =>
    unfold decimalAux
    split
    · rename_i hn
      simp [digitVal_digitChar n hn]
    · rw [ih (n / 10) _ (by omega)]
      simp only [List.foldl_cons]
      rw [digitVal_digitChar (n % 10) (Nat.mod_lt _ (by decide))]
      congr 1
      omega

/-- Reading back the decimal rendering of a number gives the number. -/
theorem parseDecimal_decimal (n : Nat) : parseDecimal (decimal n) = n := by
  unfold parseDecimal decimal
  rw [foldl_decimalAux (n + 1) n [] (by omega)]
  rfl

theorem decimal_injective {m n : Nat} (h : decimal m = decimal n) : m = n := by
  have := congrArg parseDecimal h
  rwa [parseDecimal_decimal, parseDecimal_decimal] at this

theorem underscore_not_mem_decimal (n : Nat) : '_' ∉ decimal n := by
  intro h
  obtain ⟨d, hd, e⟩ := mem_decimal n _ h
  exact (digitChar_ne d hd).2.2.1 e.symm

theorem minus_not_mem_decimal (n : Nat) : '-' ∉ decimal n := by
  intro h
  obtain ⟨d, hd, e⟩ := mem_decimal n _ h
  exact (digitChar_ne d hd).2.2.2 e.symm

theorem underscore_not_mem_fmtD (i : Int) : '_' ∉ fmtD i := by
  unfold fmtD
  split
  · intro h
    rcases List.mem_cons.mp h with h | h
    · exact absurd h (by decide)
    · exact underscore_not_mem_decimal _ h
  · exact underscore_not_mem_decimal _

theorem fmtD_injective {i j : Int} (h : fmtD i = fmtD j) : i = j := by
  unfold fmtD at h
  split at h <;> split at h
  · have := decimal_injective (List.cons.inj h).2
    omega
  · exfalso
    apply minus_not_mem_decimal j.natAbs
    rw [← h]
    exact List.mem_cons_self _ _
  · exfalso
    apply minus_not_mem_decimal i.natAbs
    rw [h]
    exact List.mem_cons_self _ _
  · have := decimal_injective h
    omega

/-- Two strings cut at the first occurrence of a separator agree piecewise. -/
theorem append_sep_inj {x : Char} {a b r1 r2 : GoString} (ha : x ∉ a) (hb : x ∉ b)
    (h : a ++ x :: r1 = b ++ x :: r2) : a = b ∧ r1 = r2 := by
  induction a generalizing b with
  | nil =>
    cases b with
    | nil => exact ⟨rfl, (List.cons.inj h).2⟩
    | cons y b =>
      exfalso
      have := (List.cons.inj h).1
      exact hb (this ▸ List.mem_cons_self _ _)
  | cons y a ih =>
    cases b with
    | nil =>
      exfalso
      have := (List.cons.inj h).1
      exact ha (this ▸ List.mem_cons_self _ _)
    | cons z b =>
      have h1 := List.cons.inj h
      have := ih (fun m => ha (List.mem_cons_of_mem _ m)) (fun m => hb (List.mem_cons_of_mem _ m))
        h1.2
      exact ⟨by rw [h1.1, this.1], this.2⟩

/-- The file name determines the display index, whatever the instants. -/
theorem fileName_index_inj {i j : Int} {s t : Time} (h : fileName i s = fileName j t) :
    i = j := by
  unfold fileName at h
  simp only [List.append_assoc, List.cons_append] at h
  have h1 := List.append_cancel_left h
  exact fmtD_injective (append_sep_inj (underscore_not_mem_fmtD i) (underscore_not_mem_fmtD j) h1).1

theorem twoDigits_inj {m n : Nat} (hm : m < 100) (hn : n < 100) (h : twoDigits m = twoDigits n) :
    m = n := by
  simp only [twoDigits, List.cons.injEq, and_true] at h
  have h1 := digitChar_inj (by omega) (by omega) h.1
  have h2 := digitChar_inj (Nat.mod_lt _ (by decide)) (Nat.mod_lt _ (by decide)) h.2
  omega

theorem fourDigits_inj {m n : Nat} (hm : m < 10000) (hn : n < 10000)
    (h : fourDigits m = fourDigits n) : m = n := by
  simp only [fourDigits, List.cons.injEq, and_true] at h
  have h1 := digitChar_inj (by omega) (by omega) h.1
  have h2 := digitChar_inj (Nat.mod_lt _ (by decide)) (Nat.mod_lt _ (by decide)) h.2.1
  have h3 := digitChar_inj (Nat.mod_lt _ (by decide)) (Nat.mod_lt _ (by decide)) h.2.2.1
  have h4 := digitChar_inj (Nat.mod_lt _ (by decide)) (Nat.mod_lt _ (by decide)) h.2.2.2
  omega

/-- The path of the specification determines the instant to the second. -/
theorem specPath_time_inj (i : Nat) (s t : Time) (hs : 0 ≤ s.year ∧ s.year ≤ 9999)
    (ht : 0 ≤ t.year ∧ t.year ≤ 9999) (h : specPath i s = specPath i t) : s.sameSecond t := by
  have hsm := s.month_ok
  have hsd := s.day_ok
  have hsh := s.hour_ok
  have hsi := s.minute_ok
  have hss := s.second_ok
  have htm := t.month_ok
  have htd := t.day_ok
  have hth := t.hour_ok
  have hti := t.minute_ok
  have hts := t.second_ok
  unfold specPath at h
  simp only [List.append_assoc] at h
  have h := List.append_cancel_left (List.append_cancel_left (List.append_cancel_left h))
  simp only [fourDigits, twoDigits, List.cons_append, List.nil_append, List.cons.injEq,
    String.toList] at h
  obtain ⟨y1, y2, y3, y4, -, m1, m2, -, d1, d2, -, h1, h2, -, i1, i2, -, s1, s2, -⟩ := h
  have ey := @fourDigits_inj s.year.toNat t.year.toNat (by omega) (by omega)
    (by simp [fourDigits, y1, y2, y3, y4])
  have em := @twoDigits_inj s.month t.month (by omega) (by omega)
    (by simp [twoDigits, m1, m2])
  have ed := @twoDigits_inj s.day t.day (by omega) (by omega)
    (by simp [twoDigits, d1, d2])
  have eh := @twoDigits_inj s.hour t.hour (by omega) (by omega)
    (by simp [twoDigits, h1, h2])
  have ei := @twoDigits_inj s.minute t.minute (by omega) (by omega)
    (by simp [twoDigits, i1, i2])
  have es := @twoDigits_inj s.second t.second (by omega) (by omega)
    (by simp [twoDigits, s1, s2])
  exact ⟨by omega, em, ed, eh, ei, es⟩

/-! ## Lemmas on traces -/

theorem createdPaths_append (a b : List Event) :
    createdPaths (a ++ b) = createdPaths a ++ createdPaths b := by
  induction a with
  | nil => rfl
  | cons e a ih => cases e <;> simp [createdPaths, ih]

theorem capturedRects_append (a b : List Event) :
    capturedRects (a ++ b) = capturedRects a ++ capturedRects b := by
  induction a with
  | nil => rfl
  | cons e a ih => cases e <;> simp [capturedRects, ih]

theorem mkdirCalls_append (a b : List Event) :
    mkdirCalls (a ++ b) = mkdirCalls a ++ mkdirCalls b := by
  induction a with
  | nil => rfl
  | cons e a ih => cases e <;> simp [mkdirCalls, ih]

theorem encodedFiles_append (a b : List Event) :
    encodedFiles (a ++ b) = encodedFiles a ++ encodedFiles b := by
  induction a with
  | nil => rfl
  | cons e a ih => cases e <;> simp [encodedFiles, ih]

theorem createdPaths_close (l : List (Option GoString)) :
    createdPaths (l.map Event.close) = [] := by
  induction l with
  | nil => rfl
  | cons e a ih => simp [createdPaths, ih]

theorem capturedRects_close (l : List (Option GoString)) :
    capturedRects (l.map Event.close) = [] := by
  induction l with
  | nil => rfl
  | cons e a ih => simp [capturedRects, ih]

theorem mkdirCalls_close (l : List (Option GoString)) :
    mkdirCalls (l.map Event.close) = [] := by
  induction l with
  | nil => rfl
  | cons e a ih => simp [mkdirCalls, ih]

theorem encodedFiles_close (l : List (Option GoString)) :
    encodedFiles (l.map Event.close) = [] := by
  induction l with
  | nil => rfl
  | cons e a ih => simp [encodedFiles, ih]

/-! ## One iteration -/

/-- The folder check ends the run exactly when the folder is absent and cannot
be created. -/
theorem ensureFolder_fatal (env : Env) (i : Nat) (st : State)
    (hf : st.fs.folder = .absent) (hm : env.MkdirFails i = true) :
    ensureFolder env i st =
      (⟨st.fs, st.trace ++ [.stat folderName, .mkdir folderName 0o755, .fatal msgFolder],
        st.deferred⟩, some (.fatal msgFolder)) := by
  simp [ensureFolder, osStat, hf, hm, State.emit]

/-- When the folder check lets the run go on: the folder is there afterwards
unless it was unreadable, and `os.Mkdir` was called only if it was absent. -/
theorem ensureFolder_ok (env : Env) (i : Nat) (st : State)
    (h : st.fs.folder = .absent → env.MkdirFails i = false) :
    ∃ info, ensureFolder env i st =
      (⟨⟨if st.fs.folder = .absent then .present (maskedPerm 0o755 env.Umask) else st.fs.folder, st.fs.files⟩,
        st.trace ++ (.stat folderName ::
          ((if st.fs.folder = .absent then [.mkdir folderName 0o755] else []) ++
            [.println info])),
        st.deferred⟩, none) := by
  obtain ⟨⟨folder, files⟩, trace, deferred⟩ := st
  cases folder with
  | absent =>
    have hm := h rfl
    exact ⟨none, by simp [ensureFolder, osStat, hm, State.emit]⟩
  | present m => exact ⟨some ⟨folderName, m⟩, by simp [ensureFolder, osStat, State.emit]⟩
  | unreadable => exact ⟨none, by simp [ensureFolder, osStat, State.emit]⟩

theorem iteration_fatal (env : Env) (i : Nat) (st : State)
    (hf : st.fs.folder = .absent) (hm : env.MkdirFails i = true) :
    iteration env i st =
      (⟨st.fs, st.trace ++ [.stat folderName, .mkdir folderName 0o755, .fatal msgFolder],
        st.deferred⟩, some (.fatal msgFolder)) := by
  unfold iteration
  rw [ensureFolder_fatal env i st hf hm]

/-- An iteration whose capture succeeds, whatever `os.Create` and `png.Encode`
answer. -/
theorem iteration_ok (env : Env) (i : Nat) (st : State) (img : RGBA)
    (h : st.fs.folder = .absent → env.MkdirFails i = false)
    (hc : env.CaptureRect i (trimmed (env.GetDisplayBounds i)) = .ok img) :
    ∃ info, iteration env i st =
      (⟨⟨if st.fs.folder = .absent then .present (maskedPerm 0o755 env.Umask) else st.fs.folder,
          if env.CreateFails i then st.fs.files
          else (fileName i (env.Now i), if env.EncodeFails i then .broken else .png img) ::
            (fileName i (env.Now i), .empty) :: st.fs.files⟩,
        st.trace ++ (.stat folderName ::
          ((if st.fs.folder = .absent then [.mkdir folderName 0o755] else []) ++
            [.println info, .create (fileName i (env.Now i)),
              .capture (trimmed (env.GetDisplayBounds i)),
              .encode (if env.CreateFails i then none else some (fileName i (env.Now i))) img])),
        (if env.CreateFails i then none else some (fileName i (env.Now i))) :: st.deferred⟩,
        none) := by
  obtain ⟨info, he⟩ := ensureFolder_ok env i st h
  refine ⟨info, ?_⟩
  unfold iteration
  rw [he]
  unfold trimmed at hc
  cases hcf : env.CreateFails i <;> cases hef : env.EncodeFails i <;>
    simp [osCreate, screenShot, hc, pngEncode, State.emit, hcf, hef, trimmed]

/-- An iteration whose capture fails: `screenShot` panics, the deferred calls
run, and nothing is encoded. -/
theorem iteration_panic (env : Env) (i : Nat) (st : State) (err : String)
    (h : st.fs.folder = .absent → env.MkdirFails i = false)
    (hc : env.CaptureRect i (trimmed (env.GetDisplayBounds i)) = .error err) :
    ∃ info, iteration env i st =
      (⟨⟨if st.fs.folder = .absent then .present (maskedPerm 0o755 env.Umask) else st.fs.folder,
          if env.CreateFails i then st.fs.files
          else (fileName i (env.Now i), .empty) :: st.fs.files⟩,
        st.trace ++ (.stat folderName ::
          ((if st.fs.folder = .absent then [.mkdir folderName 0o755] else []) ++
            [.println info, .create (fileName i (env.Now i)),
              .capture (trimmed (env.GetDisplayBounds i))])) ++
          (((if env.CreateFails i then none else some (fileName i (env.Now i))) ::
            st.deferred).map Event.close ++ [.panic err]),
        []⟩,
        some (.panic err)) := by
  obtain ⟨info, he⟩ := ensureFolder_ok env i st h
  refine ⟨info, ?_⟩
  unfold iteration
  rw [he]
  unfold trimmed at hc
  cases hcf : env.CreateFails i <;>
    simp [osCreate, screenShot, hc, State.emit, hcf, trimmed, runDeferred]

/-- No iteration ends through the `log.Fatalln` that follows `screenShot`. -/
theorem iteration_ne_msgShot (env : Env) (i : Nat) (st : State) :
    (iteration env i st).2 ≠ some (.fatal msgShot) := by
  by_cases h : st.fs.folder = .absent ∧ env.MkdirFails i = true
  · rw [iteration_fatal env i st h.1 h.2]
    simp only [ne_eq, Option.some.injEq, Outcome.fatal.injEq]
    decide
  · have h' : st.fs.folder = .absent → env.MkdirFails i = false := by
      intro hf
      cases hm : env.MkdirFails i
      · rfl
      · exact absurd ⟨hf, hm⟩ h
    cases hc : env.CaptureRect i (trimmed (env.GetDisplayBounds i)) with
    | ok img =>
      obtain ⟨info, he⟩ := iteration_ok env i st img h' hc
      rw [he]
      simp
    | error err =>
      obtain ⟨info, he⟩ := iteration_panic env i st err h' hc
      rw [he]
      simp

theorem captureFails_false {env : Env} {j : Nat} (h : captureFails env j = false) :
    ∃ img, env.CaptureRect j (trimmed (env.GetDisplayBounds j)) = .ok img := by
  unfold captureFails at h
  split at h
  · exact ⟨_, by assumption⟩
  · cases h

theorem captureFails_true {env : Env} {j : Nat} (h : captureFails env j = true) :
    ∃ err, env.CaptureRect j (trimmed (env.GetDisplayBounds j)) = .error err := by
  unfold captureFails at h
  split at h
  · cases h
  · exact ⟨_, by assumption⟩

/-- What an iteration with a successful capture leaves behind. -/
theorem iteration_ok_facts (env : Env) (i : Nat) (st : State)
    (h : st.fs.folder = .absent → env.MkdirFails i = false)
    (hc : captureFails env i = false) :
    (iteration env i st).2 = none ∧
    (iteration env i st).1.fs.folder =
      (if st.fs.folder = .absent then .present (maskedPerm 0o755 env.Umask) else st.fs.folder) ∧
    (∃ img, env.CaptureRect i (trimmed (env.GetDisplayBounds i)) = .ok img ∧
      (iteration env i st).1.fs.files =
        if env.CreateFails i then st.fs.files
        else (pathOf env i, if env.EncodeFails i then .broken else .png img) ::
          (pathOf env i, .empty) :: st.fs.files) ∧
    createdPaths (iteration env i st).1.trace = createdPaths st.trace ++ [pathOf env i] ∧
    capturedRects (iteration env i st).1.trace =
      capturedRects st.trace ++ [trimmed (env.GetDisplayBounds i)] ∧
    mkdirCalls (iteration env i st).1.trace =
      mkdirCalls st.trace ++ (if st.fs.folder = .absent then [(folderName, 0o755)] else []) ∧
    encodedFiles (iteration env i st).1.trace =
      encodedFiles st.trace ++ [if env.CreateFails i then none else some (pathOf env i)] := by
  obtain ⟨img, hi⟩ := captureFails_false hc
  obtain ⟨info, he⟩ := iteration_ok env i st img h hi
  rw [he]
  refine ⟨rfl, rfl, ⟨img, hi, rfl⟩, ?_, ?_, ?_, ?_⟩
  · by_cases hf : st.fs.folder = .absent <;>
      simp [createdPaths_append, createdPaths, hf, pathOf]
  · by_cases hf : st.fs.folder = .absent <;>
      simp [capturedRects_append, capturedRects, hf]
  · by_cases hf : st.fs.folder = .absent <;>
      simp [mkdirCalls_append, mkdirCalls, hf]
  · by_cases hf : st.fs.folder = .absent <;>
      simp [encodedFiles_append, encodedFiles, hf, pathOf]

theorem folder_after_ne_absent (f : FolderState) (m : Nat) :
    (if f = .absent then FolderState.present m else f) ≠ .absent := by
  by_cases h : f = .absent
  · simp [h]
  · simp [h]

/-! ## The loop -/

theorem loop_succ_of_none (env : Env) (k i : Nat) (st : State)
    (h : (iteration env i st).2 = none) :
    loop env (k + 1) i st = loop env k (i + 1) (iteration env i st).1 := by
  have hpair : iteration env i st = ((iteration env i st).1, none) := by rw [← h]
  rw [loop, hpair]

theorem loop_succ_of_some (env : Env) (k i : Nat) (st : State) (out : Outcome)
    (h : (iteration env i st).2 = some out) :
    loop env (k + 1) i st = ((iteration env i st).1, out) := by
  have hpair : iteration env i st = ((iteration env i st).1, some out) := by rw [← h]
  rw [loop, hpair]

/-- As long as captures succeed the loop goes on. -/
theorem loop_steps (env : Env) (a b i : Nat) (st : State)
    (h : st.fs.folder = .absent → env.MkdirFails i = false)
    (hc : ∀ j, i ≤ j → j < i + a → captureFails env j = false) :
    loop env (a + b) i st = loop env b (i + a) (steps env a i st) := by
  induction a generalizing i st with
  | zero => simp [steps]
  | succ a ih =>
    obtain ⟨h2, hfo, -⟩ := iteration_ok_facts env i st h (hc i (le_refl _) (by omega))
    have e : a + 1 + b = (a + b) + 1 := by omega
    have e2 : i + 1 + a = i + (a + 1) := by omega
    rw [e, loop_succ_of_none env _ i st h2, steps,
      ih (i + 1) _ (fun hf => absurd (hfo ▸ hf) (folder_after_ne_absent _ _))
        (fun j h1 h2 => hc j (by omega) (by omega)), e2]

theorem pathOf_inj (env : Env) {j k : Nat} (h : pathOf env j = pathOf env k) : j = k := by
  have := fileName_index_inj h
  omega

/-- The calls made in `a` iterations whose captures succeed. -/
theorem steps_trace (env : Env) (a i : Nat) (st : State)
    (h : st.fs.folder = .absent → env.MkdirFails i = false)
    (hc : ∀ j, i ≤ j → j < i + a → captureFails env j = false) :
    createdPaths (steps env a i st).trace =
      createdPaths st.trace ++ (List.range' i a).map (pathOf env) ∧
    capturedRects (steps env a i st).trace =
      capturedRects st.trace ++
        (List.range' i a).map (fun j => trimmed (env.GetDisplayBounds j)) ∧
    encodedFiles (steps env a i st).trace =
      encodedFiles st.trace ++
        (List.range' i a).map
          (fun j => if env.CreateFails j then none else some (pathOf env j)) := by
  induction a generalizing i st with
  | zero => simp [steps]
  | succ a ih =>
    obtain ⟨-, hfo, -, h4, h5, -, h7⟩ :=
      iteration_ok_facts env i st h (hc i (le_refl _) (by omega))
    obtain ⟨i1, i2, i3⟩ := ih (i + 1) (iteration env i st).1
      (fun hf => absurd (hfo ▸ hf) (folder_after_ne_absent _ _))
      (fun j h1 h2 => hc j (by omega) (by omega))
    rw [steps, i1, i2, i3, h4, h5, h7]
    simp [List.range'_succ]

/-- A folder that is not absent stays as it is, and `os.Mkdir` is not called. -/
theorem iteration_folder_keep (env : Env) (i : Nat) (st : State)
    (hf : st.fs.folder ≠ .absent) :
    (iteration env i st).1.fs.folder = st.fs.folder ∧
    mkdirCalls (iteration env i st).1.trace = mkdirCalls st.trace ∧
    (iteration env i st).2 ≠ some (.fatal msgFolder) := by
  have h : st.fs.folder = .absent → env.MkdirFails i = false := fun e => absurd e hf
  cases hc : env.CaptureRect i (trimmed (env.GetDisplayBounds i)) with
  | ok img =>
    obtain ⟨info, he⟩ := iteration_ok env i st img h hc
    rw [he]
    simp [hf, mkdirCalls_append, mkdirCalls]
  | error err =>
    obtain ⟨info, he⟩ := iteration_panic env i st err h hc
    rw [he]
    simp [hf, mkdirCalls_append, mkdirCalls, mkdirCalls_close]

theorem runDeferred_facts (st : State) :
    (runDeferred st).fs = st.fs ∧
    createdPaths (runDeferred st).trace = createdPaths st.trace ∧
    capturedRects (runDeferred st).trace = capturedRects st.trace ∧
    mkdirCalls (runDeferred st).trace = mkdirCalls st.trace ∧
    encodedFiles (runDeferred st).trace = encodedFiles st.trace := by
  simp [runDeferred, createdPaths_append, createdPaths_close, capturedRects_append,
    capturedRects_close, mkdirCalls_append, mkdirCalls_close, encodedFiles_append,
    encodedFiles_close]

/-- In a whole run from a folder that is not absent, the folder stays as it is,
`os.Mkdir` is never called and the run does not end on the folder. -/
theorem loop_folder_keep (env : Env) (k i : Nat) (st : State)
    (hf : st.fs.folder ≠ .absent) :
    (loop env k i st).1.fs.folder = st.fs.folder ∧
    mkdirCalls (loop env k i st).1.trace = mkdirCalls st.trace ∧
    (loop env k i st).2 ≠ .fatal msgFolder := by
  induction k generalizing i st with
  | zero =>
    obtain ⟨h1, -, -, h4, -⟩ := runDeferred_facts st
    simp [loop, h1, h4]
  | succ k ih =>
    obtain ⟨h1, h2, h3⟩ := iteration_folder_keep env i st hf
    cases ho : (iteration env i st).2 with
    | none =>
      rw [loop_succ_of_none env k i st ho]
      obtain ⟨j1, j2, j3⟩ := ih (i + 1) (iteration env i st).1 (by rw [h1]; exact hf)
      exact ⟨by rw [j1, h1], by rw [j2, h2], j3⟩
    | some out =>
      rw [loop_succ_of_some env k i st out ho]
      refine ⟨h1, h2, ?_⟩
      intro e
      apply h3
      rw [ho]
      exact congrArg some e

/-- No run ends through the `log.Fatalln` that follows `screenShot`. -/
theorem loop_ne_msgShot (env : Env) (k i : Nat) (st : State) :
    (loop env k i st).2 ≠ .fatal msgShot := by
  induction k generalizing i st with
  | zero => simp [loop]
  | succ k ih =>
    cases ho : (iteration env i st).2 with
    | none =>
      rw [loop_succ_of_none env k i st ho]
      exact ih _ _
    | some out =>
      rw [loop_succ_of_some env k i st out ho]
      intro e
      apply iteration_ne_msgShot env i st
      rw [ho]
      exact congrArg some e

/-! ## The files of a run -/

/-- The files after an iteration whose capture succeeds: the file of the display
holds the picture if it could be created, all others are untouched. -/
theorem iteration_read (env : Env) (i : Nat) (st : State)
    (h : st.fs.folder = .absent → env.MkdirFails i = false)
    (hc : captureFails env i = false) :
    ∃ img, env.CaptureRect i (trimmed (env.GetDisplayBounds i)) = .ok img ∧
      ∀ p, (iteration env i st).1.fs.read p =
        if env.CreateFails i = false ∧ p = pathOf env i then
          some (if env.EncodeFails i then .broken else .png img)
        else st.fs.read p := by
  obtain ⟨-, -, ⟨img, hi, hfiles⟩, -⟩ := iteration_ok_facts env i st h hc
  refine ⟨img, hi, fun p => ?_⟩
  unfold FS.read
  rw [hfiles]
  cases hcf : env.CreateFails i
  · by_cases hp : p = pathOf env i
    · simp [hp, List.lookup_cons]
    · have hb : (p == pathOf env i) = false := by simpa using hp
      simp [hp, List.lookup_cons, hb]
  · simp

theorem steps_read_frame (env : Env) (a i : Nat) (st : State)
    (h : st.fs.folder = .absent → env.MkdirFails i = false)
    (hc : ∀ j, i ≤ j → j < i + a → captureFails env j = false)
    (p : GoString) (hp : ∀ j, i ≤ j → j < i + a → pathOf env j ≠ p) :
    (steps env a i st).fs.read p = st.fs.read p := by
  induction a generalizing i st with
  | zero => simp [steps]
  | succ a ih =>
    obtain ⟨-, hfo, -⟩ := iteration_ok_facts env i st h (hc i (le_refl _) (by omega))
    obtain ⟨img, -, hr⟩ := iteration_read env i st h (hc i (le_refl _) (by omega))
    rw [steps, ih (i + 1) (iteration env i st).1
      (fun hf => absurd (hfo ▸ hf) (folder_after_ne_absent _ _))
      (fun j h1 h2 => hc j (by omega) (by omega))
      (fun j h1 h2 => hp j (by omega) (by omega)), hr p]
    have : p ≠ pathOf env i := fun e => hp i (le_refl _) (by omega) e.symm
    simp [this]

/-- After `a` iterations whose captures succeed, the file of each display whose
`os.Create` succeeded holds the picture of that display. -/
theorem steps_read_new (env : Env) (a i : Nat) (st : State)
    (h : st.fs.folder = .absent → env.MkdirFails i = false)
    (hc : ∀ j, i ≤ j → j < i + a → captureFails env j = false)
    (j : Nat) (hj1 : i ≤ j) (hj2 : j < i + a) (hcf : env.CreateFails j = false) :
    ∃ img, env.CaptureRect j (trimmed (env.GetDisplayBounds j)) = .ok img ∧
      (steps env a i st).fs.read (pathOf env j) =
        some (if env.EncodeFails j then .broken else .png img) := by
  induction a generalizing i st with
  | zero => omega
  | succ a ih =>
    obtain ⟨-, hfo, -⟩ := iteration_ok_facts env i st h (hc i (le_refl _) (by omega))
    have h' : (iteration env i st).1.fs.folder = .absent → env.MkdirFails (i + 1) = false :=
      fun hf => absurd (hfo ▸ hf) (folder_after_ne_absent _ _)
    have hc' : ∀ j, i + 1 ≤ j → j < i + 1 + a → captureFails env j = false :=
      fun j h1 h2 => hc j (by omega) (by omega)
    by_cases hji : j = i
    · subst hji
      obtain ⟨img, hi, hr⟩ := iteration_read env j st h (hc j (le_refl _) (by omega))
      refine ⟨img, hi, ?_⟩
      rw [steps, steps_read_frame env a (j + 1) _ h' hc' (pathOf env j)
        (fun k h1 _ e => by have := pathOf_inj env e; omega), hr]
      simp [hcf]
    · rw [steps]
      exact ih (i + 1) _ h' hc' (by omega) (by omega)

/-- Files are never removed. -/
theorem steps_read_mono (env : Env) (a i : Nat) (st : State)
    (h : st.fs.folder = .absent → env.MkdirFails i = false)
    (hc : ∀ j, i ≤ j → j < i + a → captureFails env j = false)
    (p : GoString) (hp : (st.fs.read p).isSome) :
    ((steps env a i st).fs.read p).isSome := by
  induction a generalizing i st with
  | zero => simpa [steps] using hp
  | succ a ih =>
    obtain ⟨-, hfo, -⟩ := iteration_ok_facts env i st h (hc i (le_refl _) (by omega))
    obtain ⟨img, -, hr⟩ := iteration_read env i st h (hc i (le_refl _) (by omega))
    rw [steps]
    apply ih (i + 1) (iteration env i st).1
      (fun hf => absurd (hfo ▸ hf) (folder_after_ne_absent _ _))
      (fun j h1 h2 => hc j (by omega) (by omega))
    rw [hr p]
    split
    · rfl
    · exact hp

/-- Every file there is after `a` iterations was there before or is the output
file of one of the displays. -/
theorem steps_read_only (env : Env) (a i : Nat) (st : State)
    (h : st.fs.folder = .absent → env.MkdirFails i = false)
    (hc : ∀ j, i ≤ j → j < i + a → captureFails env j = false)
    (p : GoString) (hp : ((steps env a i st).fs.read p).isSome) :
    (st.fs.read p).isSome ∨ ∃ j, i ≤ j ∧ j < i + a ∧ p = pathOf env j := by
  induction a generalizing i st with
  | zero => exact Or.inl (by simpa [steps] using hp)
  | succ a ih =>
    obtain ⟨-, hfo, -⟩ := iteration_ok_facts env i st h (hc i (le_refl _) (by omega))
    obtain ⟨img, -, hr⟩ := iteration_read env i st h (hc i (le_refl _) (by omega))
    rw [steps] at hp
    rcases ih (i + 1) (iteration env i st).1
      (fun hf => absurd (hfo ▸ hf) (folder_after_ne_absent _ _))
      (fun j h1 h2 => hc j (by omega) (by omega)) hp with h1 | ⟨j, h1, h2, h3⟩
    · rw [hr p] at h1
      split at h1
      · rename_i hcond
        exact Or.inr ⟨i, le_refl _, by omega, hcond.2⟩
      · exact Or.inl h1
    · exact Or.inr ⟨j, by omega, by omega, h3⟩

theorem appendInt_length (x : Int) (w : Nat) : w ≤ (appendInt x w).length := by
  unfold appendInt
  simp only
  split
  · rename_i h
    simp only [List.length_append, List.length_cons, List.length_nil]
    omega
  · split
    · rename_i h
      simp only [List.length_append, List.length_cons, List.length_nil]
      omega
    · simp only [List.length_append, List.length_replicate]
      omega

/-- The string form of an instant has at least 19 bytes, so the slice `[:19]`
of `main` is always in range. -/
theorem Time.String_length (t : Time) : 19 ≤ t.String.length := by
  have h1 := appendInt_length t.year 4
  have h2 := appendInt_length t.month 2
  have h3 := appendInt_length t.day 2
  have h4 := appendInt_length t.hour 2
  have h5 := appendInt_length t.minute 2
  have h6 := appendInt_length t.second 2
  unfold Time.String
  simp only [List.length_append, List.length_cons]
  omega

/-! ## Whole runs -/

/-- A run in which no capture fails and the folder can be made returns, after
one iteration per display. -/
theorem main_ok (env : Env) (fs : FS) (N : Nat) (hN : env.NumActiveDisplays = N)
    (hdir : fs.folder = .absent → env.MkdirFails 0 = false)
    (hcap : ∀ j, j < N → captureFails env j = false) :
    main env fs = (runDeferred (steps env N 0 ⟨fs, [], []⟩), .returned) := by
  unfold main
  rw [hN, Int.toNat_ofNat]
  have := loop_steps env N 0 0 ⟨fs, [], []⟩ hdir (fun j _ h => hcap j (by omega))
  rw [Nat.add_zero] at this
  rw [this, loop]

theorem pathOf_starts (env : Env) (i : Nat) :
    ∃ rest, pathOf env i = "img/".toList ++ decimal i ++ '_' :: rest := by
  have hi : fmtD (i : Int) = decimal i := by
    have h0 : ¬ ((i : Int) < 0) := by omega
    simp [fmtD, h0]
  unfold pathOf fileName
  rw [hi]
  simp only [List.append_assoc, List.cons_append, folderName]
  exact ⟨_, rfl⟩

theorem pathOf_nodup (env : Env) (N : Nat) : ((List.range N).map (pathOf env)).Nodup :=
  List.Nodup.map (fun _ _ h => pathOf_inj env h) (List.nodup_range N)

theorem steps_folder_keep (env : Env) (a i : Nat) (st : State)
    (hf : st.fs.folder ≠ .absent) : (steps env a i st).fs.folder = st.fs.folder := by
  induction a generalizing i st with
  | zero => rfl
  | succ a ih =>
    obtain ⟨h1, -⟩ := iteration_folder_keep env i st hf
    rw [steps, ih (i + 1) _ (by rw [h1]; exact hf), h1]

/-- After at least one iteration the folder is not absent any more. -/
theorem steps_folder_ne_absent (env : Env) (a i : Nat) (st : State)
    (h : st.fs.folder = .absent → env.MkdirFails i = false)
    (hc : ∀ j, i ≤ j → j < i + (a + 1) → captureFails env j = false) :
    (steps env (a + 1) i st).fs.folder ≠ .absent := by
  obtain ⟨-, hfo, -⟩ := iteration_ok_facts env i st h (hc i (le_refl _) (by omega))
  have hne : (iteration env i st).1.fs.folder ≠ .absent := by
    rw [hfo]
    exact folder_after_ne_absent _ _
  rw [steps, steps_folder_keep env a (i + 1) _ hne]
  exact hne

/-- From an absent folder that can be made: the folder is there after the
iteration, made by one call `os.Mkdir("img/", 0755)`. -/
theorem iteration_absent_facts (env : Env) (i : Nat) (st : State)
    (hf : st.fs.folder = .absent) (hm : env.MkdirFails i = false) :
    (iteration env i st).1.fs.folder = .present (maskedPerm 0o755 env.Umask) ∧
    mkdirCalls (iteration env i st).1.trace = mkdirCalls st.trace ++ [(folderName, 0o755)] ∧
    (iteration env i st).2 ≠ some (.fatal msgFolder) := by
  have h : st.fs.folder = .absent → env.MkdirFails i = false := fun _ => hm
  cases hc : env.CaptureRect i (trimmed (env.GetDisplayBounds i)) with
  | ok img =>
    obtain ⟨info, he⟩ := iteration_ok env i st img h hc
    rw [he]
    simp [hf, mkdirCalls_append, mkdirCalls]
  | error err =>
    obtain ⟨info, he⟩ := iteration_panic env i st err h hc
    rw [he]
    simp [hf, mkdirCalls_append, mkdirCalls, mkdirCalls_close]

theorem loop_absent_facts (env : Env) (k i : Nat) (st : State)
    (hf : st.fs.folder = .absent) (hm : env.MkdirFails i = false) :
    (loop env (k + 1) i st).1.fs.folder = .present (maskedPerm 0o755 env.Umask) ∧
    mkdirCalls (loop env (k + 1) i st).1.trace =
      mkdirCalls st.trace ++ [(folderName, 0o755)] := by
  obtain ⟨h1, h2, -⟩ := iteration_absent_facts env i st hf hm
  cases ho : (iteration env i st).2 with
  | none =>
    rw [loop_succ_of_none env k i st ho]
    obtain ⟨j1, j2, -⟩ := loop_folder_keep env k (i + 1) (iteration env i st).1
      (by rw [h1]; exact fun e => FolderState.noConfusion e)
    exact ⟨by rw [j1, h1], by rw [j2, h2]⟩
  | some out =>
    rw [loop_succ_of_some env k i st out ho]
    exact ⟨h1, h2⟩

/-- A run whose first failing capture is that of display `k`. -/
theorem main_panic (env : Env) (fs : FS) (N k : Nat) (hN : env.NumActiveDisplays = N)
    (hk : k < N) (hdir : fs.folder = .absent → env.MkdirFails 0 = false)
    (hcap : ∀ j, j < k → captureFails env j = false) (err : String)
    (hfail : env.CaptureRect k (trimmed (env.GetDisplayBounds k)) = .error err) :
    ∃ pre folder,
      main env fs =
        (⟨⟨folder,
            if env.CreateFails k then (steps env k 0 ⟨fs, [], []⟩).fs.files
            else (pathOf env k, .empty) :: (steps env k 0 ⟨fs, [], []⟩).fs.files⟩,
          (steps env k 0 ⟨fs, [], []⟩).trace ++ pre ++
            (.create (pathOf env k) :: .capture (trimmed (env.GetDisplayBounds k)) ::
              (((if env.CreateFails k then none else some (pathOf env k)) ::
                (steps env k 0 ⟨fs, [], []⟩).deferred).map Event.close ++ [.panic err])),
          []⟩, .panic err) ∧
      createdPaths pre = [] ∧ capturedRects pre = [] ∧ encodedFiles pre = [] := by
  have hst : (steps env k 0 ⟨fs, [], []⟩).fs.folder = .absent → env.MkdirFails k = false := by
    cases k with
    | zero => exact hdir
    | succ k =>
      intro hf
      exact absurd hf (steps_folder_ne_absent env k 0 _ hdir (fun j _ h => hcap j (by omega)))
  obtain ⟨info, he⟩ := iteration_panic env k (steps env k 0 ⟨fs, [], []⟩) err hst hfail
  obtain ⟨m, hm⟩ : ∃ m, N = k + (m + 1) := ⟨N - k - 1, by omega⟩
  refine ⟨.stat folderName ::
    ((if (steps env k 0 ⟨fs, [], []⟩).fs.folder = .absent then [.mkdir folderName 0o755]
      else []) ++ [.println info]),
    (if (steps env k 0 ⟨fs, [], []⟩).fs.folder = .absent then .present (maskedPerm 0o755 env.Umask)
      else (steps env k 0 ⟨fs, [], []⟩).fs.folder), ?_, ?_, ?_, ?_⟩
  · unfold main
    rw [hN, Int.toNat_ofNat, hm,
      loop_steps env k (m + 1) 0 ⟨fs, [], []⟩ hdir (fun j _ h => hcap j (by omega)),
      loop_succ_of_some env m (0 + k) _ (.panic err) (by rw [Nat.zero_add, he]),
      Nat.zero_add, he]
    simp [pathOf]
  · split <;> simp [createdPaths]
  · split <;> simp [capturedRects]
  · split <;> simp [encodedFiles]

theorem wrapInt_range (x : Int) : minInt ≤ wrapInt x ∧ wrapInt x ≤ maxInt := by
  unfold wrapInt minInt maxInt
  omega

theorem wrapInt_eq_self {x : Int} (h1 : minInt ≤ x) (h2 : x ≤ maxInt) : wrapInt x = x := by
  unfold wrapInt
  unfold minInt at h1
  unfold maxInt at h2
  omega

theorem wrapInt_sub_zero (x : Int) : wrapInt (wrapInt x - 0) = wrapInt x := by
  have h := wrapInt_range x
  rw [Int.sub_zero, wrapInt_eq_self h.1 h.2]

/-- With `timestamp = false`, `screenShot` makes one capture call, for the
trimmed rectangle, and hands back the answer, or panics on an error. -/
theorem screenShot_false (env : Env) (i : Nat) (box : Rectangle) (st : State) :
    screenShot env i false box st =
      (st.emit (.capture ⟨⟨0, 0⟩, ⟨box.Dx, wrapInt (box.Dy - 50)⟩⟩),
        match env.CaptureRect i ⟨⟨0, 0⟩, ⟨box.Dx, wrapInt (box.Dy - 50)⟩⟩ with
        | .ok img => Shot.ret img none
        | .error err => Shot.panic err) := by
  cases h : env.CaptureRect i ⟨⟨0, 0⟩, ⟨box.Dx, wrapInt (box.Dy - 50)⟩⟩ <;>
    simp [screenShot, h]

/-- Clearing in `perm` the bits of a umask that has none of them leaves `perm`. -/
theorem maskedPerm_of_disjoint (perm umask : Nat) (h : perm &&& umask = 0) :
    maskedPerm perm umask = perm := by
  unfold maskedPerm
  apply Nat.eq_of_testBit_eq
  intro j
  have hj := congrArg (fun n => n.testBit j) h
  simp only [Nat.testBit_and, Nat.zero_testBit] at hj
  rw [Nat.testBit_and, Nat.testBit_xor]
  cases hp : perm.testBit j <;> cases hu : umask.testBit j <;> simp_all

/-! ## The claims on `screenShot` -/

/-- C1, as stated, fails on Go's `int`: for the rectangle `deepBox`, of height
`H = -2^63 ≤ 50`, `H - 50` wraps around, and `screenShot` passes to the capture
primitive the rectangle `(0,0)-(0, 9223372036854775758)`, whose height is
positive and is not `H - 50`. -/
theorem C1_counterexample_height_wraps :
    deepBox.Dy = -9223372036854775808 ∧ deepBox.Dy ≤ 50 ∧
    (screenShot sampleEnv 0 false deepBox ⟨emptyFS, [], []⟩).1.trace =
      [Event.capture ⟨⟨0, 0⟩, ⟨0, 9223372036854775758⟩⟩] ∧
    ¬ ((Rectangle.mk ⟨0, 0⟩ ⟨0, 9223372036854775758⟩).Dy ≤ 0) ∧
    (Rectangle.mk ⟨0, 0⟩ ⟨0, 9223372036854775758⟩).Dy ≠ deepBox.Dy - 50 :=
  ⟨by decide, by decide, by decide, by decide, by decide⟩

/-- C1, amended: for every display rectangle `box` of width `W = box.Dx` and
height `H = box.Dy`, `screenShot` called with `timestamp = false` calls the
capture primitive exactly once, with the rectangle `Min = (0,0)`,
`Max = (W, H - 50)`, the difference being taken on Go's `int`, and hands back
what the primitive answers.  That rectangle has origin `(0,0)` and width `W`;
its height is `H - 50` unless that is below the least `int`: for `H > 50` the
height is `H - 50` and positive, and for `H ≤ 50` with `H - 50` not below the
least `int` it is `H - 50`, zero or negative, passed on unclamped. -/
theorem C1_screenShot_trims_fifty (env : Env) (i : Nat) (box : Rectangle) (st : State) :
    (screenShot env i false box st).1.trace =
      st.trace ++ [Event.capture ⟨⟨0, 0⟩, ⟨box.Dx, wrapInt (box.Dy - 50)⟩⟩] ∧
    (screenShot env i false box st).2 =
      (match env.CaptureRect i ⟨⟨0, 0⟩, ⟨box.Dx, wrapInt (box.Dy - 50)⟩⟩ with
        | .ok img => Shot.ret img none
        | .error err => Shot.panic err) ∧
    (screenShot env i false box st).1.fs = st.fs ∧
    (Rectangle.mk ⟨0, 0⟩ ⟨box.Dx, wrapInt (box.Dy - 50)⟩).Dx = box.Dx ∧
    (Rectangle.mk ⟨0, 0⟩ ⟨box.Dx, wrapInt (box.Dy - 50)⟩).Dy = wrapInt (box.Dy - 50) ∧
    (50 < box.Dy →
      (Rectangle.mk ⟨0, 0⟩ ⟨box.Dx, wrapInt (box.Dy - 50)⟩).Dy = box.Dy - 50 ∧
      0 < (Rectangle.mk ⟨0, 0⟩ ⟨box.Dx, wrapInt (box.Dy - 50)⟩).Dy) ∧
    (box.Dy ≤ 50 → minInt + 50 ≤ box.Dy →
      (Rectangle.mk ⟨0, 0⟩ ⟨box.Dx, wrapInt (box.Dy - 50)⟩).Dy = box.Dy - 50 ∧
      (Rectangle.mk ⟨0, 0⟩ ⟨box.Dx, wrapInt (box.Dy - 50)⟩).Dy ≤ 0) := by
  have key := screenShot_false env i box st
  have hx : (Rectangle.mk ⟨0, 0⟩ ⟨box.Dx, wrapInt (box.Dy - 50)⟩).Dx = box.Dx := by
    simp only [Rectangle.Dx]
    exact wrapInt_sub_zero _
  have hy : (Rectangle.mk ⟨0, 0⟩ ⟨box.Dx, wrapInt (box.Dy - 50)⟩).Dy =
      wrapInt (box.Dy - 50) := by
    simp only [Rectangle.Dy]
    exact wrapInt_sub_zero _
  have hr : minInt ≤ box.Dy ∧ box.Dy ≤ maxInt := wrapInt_range _
  have hw : minInt + 50 ≤ box.Dy → wrapInt (box.Dy - 50) = box.Dy - 50 := by
    intro h
    apply wrapInt_eq_self
    · omega
    · have := hr.2
      omega
  refine ⟨?_, ?_, ?_, hx, hy, ?_, ?_⟩
  · rw [key]
    rfl
  · rw [key]
  · rw [key]
    rfl
  · intro h
    have h0 : minInt + 50 ≤ box.Dy := by
      unfold minInt
      omega
    rw [hy, hw h0]
    exact ⟨rfl, by omega⟩
  · intro h h0
    rw [hy, hw h0]
    exact ⟨rfl, by omega⟩

/-- C1, amended, on the two displays `(0,0)-(1920,1080)` and
`(1920,0)-(3840,1080)`, both captured as `(0,0)-(1920,1030)`, and on a display
40 pixels high, captured with height `-10`. -/
theorem C1_screenShot_trims_fifty_witness :
    (screenShot sampleEnv 0 false ⟨⟨0, 0⟩, ⟨1920, 1080⟩⟩ ⟨emptyFS, [], []⟩).1.trace =
      [] ++ [Event.capture ⟨⟨0, 0⟩, ⟨(Rectangle.mk ⟨0, 0⟩ ⟨1920, 1080⟩).Dx,
        wrapInt ((Rectangle.mk ⟨0, 0⟩ ⟨1920, 1080⟩).Dy - 50)⟩⟩] ∧
    (Rectangle.mk ⟨0, 0⟩ ⟨(Rectangle.mk ⟨0, 0⟩ ⟨1920, 1080⟩).Dx,
        wrapInt ((Rectangle.mk ⟨0, 0⟩ ⟨1920, 1080⟩).Dy - 50)⟩) = ⟨⟨0, 0⟩, ⟨1920, 1030⟩⟩ ∧
    (screenShot sampleEnv 1 false ⟨⟨1920, 0⟩, ⟨3840, 1080⟩⟩ ⟨emptyFS, [], []⟩).1.trace =
      [] ++ [Event.capture ⟨⟨0, 0⟩, ⟨(Rectangle.mk ⟨1920, 0⟩ ⟨3840, 1080⟩).Dx,
        wrapInt ((Rectangle.mk ⟨1920, 0⟩ ⟨3840, 1080⟩).Dy - 50)⟩⟩] ∧
    (Rectangle.mk ⟨0, 0⟩ ⟨(Rectangle.mk ⟨1920, 0⟩ ⟨3840, 1080⟩).Dx,
        wrapInt ((Rectangle.mk ⟨1920, 0⟩ ⟨3840, 1080⟩).Dy - 50)⟩) = ⟨⟨0, 0⟩, ⟨1920, 1030⟩⟩ ∧
    lowBox.Dy ≤ 50 ∧ minInt + 50 ≤ lowBox.Dy ∧
    (Rectangle.mk ⟨0, 0⟩ ⟨lowBox.Dx, wrapInt (lowBox.Dy - 50)⟩).Dy ≤ 0 ∧
    (Rectangle.mk ⟨0, 0⟩ ⟨lowBox.Dx, wrapInt (lowBox.Dy - 50)⟩) = ⟨⟨0, 0⟩, ⟨800, -10⟩⟩ :=
  ⟨(C1_screenShot_trims_fifty sampleEnv 0 ⟨⟨0, 0⟩, ⟨1920, 1080⟩⟩ ⟨emptyFS, [], []⟩).1,
    by decide,
    (C1_screenShot_trims_fifty sampleEnv 1 ⟨⟨1920, 0⟩, ⟨3840, 1080⟩⟩ ⟨emptyFS, [], []⟩).1,
    by decide, by decide, by decide,
    ((C1_screenShot_trims_fifty sampleEnv 0 lowBox ⟨emptyFS, [], []⟩).2.2.2.2.2.2
      (by decide) (by decide)).2,
    by decide⟩

/-- C9: with `timestamp = false` the rectangle `screenShot` passes to the capture
primitive depends only on the width and the height of the display rectangle:
two display rectangles with equal `Dx` and equal `Dy` make the same call and get
the same result; and the rectangle passed for a display whose origin is not
`(0,0)` is not the rectangle of that display. -/
theorem C9_capture_ignores_origin (env : Env) (i : Nat) (b1 b2 : Rectangle) (st : State)
    (hx : b1.Dx = b2.Dx) (hy : b1.Dy = b2.Dy) :
    screenShot env i false b1 st = screenShot env i false b2 st ∧
    capturedRects (screenShot env i false b1 st).1.trace =
      capturedRects st.trace ++ [⟨⟨0, 0⟩, ⟨b1.Dx, wrapInt (b1.Dy - 50)⟩⟩] ∧
    capturedRects (screenShot env i false b2 st).1.trace =
      capturedRects st.trace ++ [⟨⟨0, 0⟩, ⟨b1.Dx, wrapInt (b1.Dy - 50)⟩⟩] ∧
    (b1.Min ≠ ⟨0, 0⟩ → (Rectangle.mk ⟨0, 0⟩ ⟨b1.Dx, wrapInt (b1.Dy - 50)⟩) ≠ b1) := by
  have e : screenShot env i false b1 st = screenShot env i false b2 st := by
    rw [screenShot_false, screenShot_false, hx, hy]
  have t1 : capturedRects (screenShot env i false b1 st).1.trace =
      capturedRects st.trace ++ [⟨⟨0, 0⟩, ⟨b1.Dx, wrapInt (b1.Dy - 50)⟩⟩] := by
    rw [screenShot_false]
    simp [State.emit, capturedRects_append, capturedRects]
  refine ⟨e, t1, by rw [← e]; exact t1, ?_⟩
  intro hmin heq
  apply hmin
  rw [← heq]

/-- C9 on the two displays `(0,0)-(1920,1080)` and `(1920,0)-(3840,1080)`: the
capture call is the same, and for the second display it is not its region. -/
theorem C9_capture_ignores_origin_witness :
    (Rectangle.mk ⟨0, 0⟩ ⟨1920, 1080⟩).Dx = (Rectangle.mk ⟨1920, 0⟩ ⟨3840, 1080⟩).Dx ∧
    (Rectangle.mk ⟨0, 0⟩ ⟨1920, 1080⟩).Dy = (Rectangle.mk ⟨1920, 0⟩ ⟨3840, 1080⟩).Dy ∧
    screenShot sampleEnv 1 false ⟨⟨0, 0⟩, ⟨1920, 1080⟩⟩ ⟨emptyFS, [], []⟩ =
      screenShot sampleEnv 1 false ⟨⟨1920, 0⟩, ⟨3840, 1080⟩⟩ ⟨emptyFS, [], []⟩ ∧
    capturedRects
      (screenShot sampleEnv 1 false ⟨⟨1920, 0⟩, ⟨3840, 1080⟩⟩ ⟨emptyFS, [], []⟩).1.trace =
      [⟨⟨0, 0⟩, ⟨1920, 1030⟩⟩] ∧
    (Rectangle.mk ⟨0, 0⟩ ⟨(Rectangle.mk ⟨1920, 0⟩ ⟨3840, 1080⟩).Dx,
      wrapInt ((Rectangle.mk ⟨1920, 0⟩ ⟨3840, 1080⟩).Dy - 50)⟩) ≠
        ⟨⟨1920, 0⟩, ⟨3840, 1080⟩⟩ :=
  ⟨by decide, by decide,
    (C9_capture_ignores_origin sampleEnv 1 ⟨⟨0, 0⟩, ⟨1920, 1080⟩⟩ ⟨⟨1920, 0⟩, ⟨3840, 1080⟩⟩
      ⟨emptyFS, [], []⟩ (by decide) (by decide)).1,
    by decide,
    (C9_capture_ignores_origin sampleEnv 1 ⟨⟨1920, 0⟩, ⟨3840, 1080⟩⟩ ⟨⟨1920, 0⟩, ⟨3840, 1080⟩⟩
      ⟨emptyFS, [], []⟩ rfl rfl).2.2.2 (by decide)⟩

/-! ## The claims on the file name -/

/-- The path of the specification depends on the instant only to the second. -/
theorem specPath_congr (i : Nat) (s t : Time) (h : s.sameSecond t) :
    specPath i s = specPath i t := by
  obtain ⟨h1, h2, h3, h4, h5, h6⟩ := h
  unfold specPath
  rw [h1, h2, h3, h4, h5, h6]

/-- C2: for every display index `i ≥ 0` and every instant `t` whose year is in
`0..9999`, the file path `main` derives is
`"img/" ++ decimal(i) ++ "_" ++ YYYY-MM-DD ++ "_" ++ HH ++ "H" ++ MM ++ "M" ++ SS ++ "S.png"`
with a four-digit year and two-digit month, day, hour, minute and second, all
zero-padded (`specPath`). -/
theorem C2_file_path_format (i : Int) (t : Time) (hi : 0 ≤ i)
    (hy : 0 ≤ t.year ∧ t.year ≤ 9999) :
    fileName i t = specPath i.toNat t ∧
    specPath i.toNat t =
      "img/".toList ++ decimal i.toNat ++ ['_'] ++
        [digitChar (t.year.toNat / 1000), digitChar (t.year.toNat / 100 % 10),
          digitChar (t.year.toNat / 10 % 10), digitChar (t.year.toNat % 10)] ++ ['-'] ++
        [digitChar (t.month / 10), digitChar (t.month % 10)] ++ ['-'] ++
        [digitChar (t.day / 10), digitChar (t.day % 10)] ++ ['_'] ++
        [digitChar (t.hour / 10), digitChar (t.hour % 10)] ++ ['H'] ++
        [digitChar (t.minute / 10), digitChar (t.minute % 10)] ++ ['M'] ++
        [digitChar (t.second / 10), digitChar (t.second % 10)] ++ "S.png".toList := by
  constructor
  · have := fileName_eq_specPath i.toNat t hy
    rwa [Int.toNat_of_nonneg hi] at this
  · rfl

/-- C2 at display 0 and 2024-03-05 14:07:22: `img/0_2024-03-05_14H07M22S.png`. -/
theorem C2_file_path_format_witness :
    (0 : Int) ≤ 0 ∧ (0 ≤ sampleTime.year ∧ sampleTime.year ≤ 9999) ∧
    fileName 0 sampleTime = specPath (0 : Int).toNat sampleTime ∧
    specPath (0 : Int).toNat sampleTime = "img/0_2024-03-05_14H07M22S.png".toList :=
  ⟨by decide, by decide, (C2_file_path_format 0 sampleTime (by decide) (by decide)).1,
    by decide⟩

/-- C7: the derived file path is injective in the display index: for display
indices `i ≠ j` and instants `s`, `t` of the 19-character form (year in
`0..9999`) the paths of `(i, s)` and `(j, t)` differ; and for one index the paths
of two instants are equal exactly when the instants agree to the second. -/
theorem C7_file_path_injective (i j : Nat) (s t : Time)
    (hs : 0 ≤ s.year ∧ s.year ≤ 9999) (ht : 0 ≤ t.year ∧ t.year ≤ 9999) :
    (i ≠ j → fileName (i : Int) s ≠ fileName (j : Int) t) ∧
    (fileName (i : Int) s = fileName (i : Int) t ↔ s.sameSecond t) := by
  refine ⟨?_, ?_, ?_⟩
  · intro hij e
    have := fileName_index_inj e
    omega
  · intro e
    rw [fileName_eq_specPath i s hs, fileName_eq_specPath i t ht] at e
    exact specPath_time_inj i s t hs ht e
  · intro e
    rw [fileName_eq_specPath i s hs, fileName_eq_specPath i t ht]
    exact specPath_congr i s t e

/-- C7 on displays 0 and 1 at the same instant (different paths) and on display
0 at two instants one second apart (different paths). -/
theorem C7_file_path_injective_witness :
    (0 ≤ sampleTime.year ∧ sampleTime.year ≤ 9999) ∧
    (0 ≤ laterTime.year ∧ laterTime.year ≤ 9999) ∧
    fileName ((0 : Nat) : Int) sampleTime ≠ fileName ((1 : Nat) : Int) laterTime ∧
    (fileName ((0 : Nat) : Int) sampleTime = fileName ((0 : Nat) : Int) laterTime ↔
      sampleTime.sameSecond laterTime) ∧
    ¬ sampleTime.sameSecond laterTime :=
  ⟨by decide, by decide,
    (C7_file_path_injective 0 1 sampleTime laterTime (by decide) (by decide)).1 (by decide),
    (C7_file_path_injective 0 0 sampleTime laterTime (by decide) (by decide)).2,
    by unfold Time.sameSecond; decide⟩

/-! ## The claims on failures -/

/-- C4 (the code departs from the claim): when the capture primitive fails,
`screenShot` panics before it returns, so the run ends in that panic and never
through the `log.Fatalln("Could not take a screenshot.")` of `main`, which no run
reaches.  In the world `captureFailEnv` the run ends while display 0 is
processed, with the panic as outcome; display 1 is not processed. -/
theorem C4_capture_failure_panics :
    (main captureFailEnv emptyFS).2 = Outcome.panic "capture failed" ∧
    (main captureFailEnv emptyFS).2 ≠ Outcome.fatal msgShot ∧
    Event.fatal msgShot ∉ (main captureFailEnv emptyFS).1.trace ∧
    capturedRects (main captureFailEnv emptyFS).1.trace = [⟨⟨0, 0⟩, ⟨1920, 1030⟩⟩] ∧
    createdPaths (main captureFailEnv emptyFS).1.trace =
      ["img/0_2024-03-05_14H07M22S.png".toList] ∧
    ∀ (env : Env) (fs : FS), (main env fs).2 ≠ Outcome.fatal msgShot :=
  ⟨by decide, by decide, by decide, by decide, by decide,
    fun env fs => loop_ne_msgShot env _ 0 _⟩

/-- C5: in the iteration of any display `i`, with `k` displays still to come, if
`os.Stat` reports the folder absent and `os.Mkdir` fails, the run ends there
through `log.Fatal`: the outcome is the fatal error, the only calls made are the
`Stat`, the `Mkdir` and the log, so that no file is created and no capture is
attempted for display `i` or for any later display, and the file system is as
it was. -/
theorem C5_mkdir_failure_is_fatal (env : Env) (k i : Nat) (st : State)
    (hf : st.fs.folder = .absent) (hm : env.MkdirFails i = true) :
    (loop env (k + 1) i st).2 = Outcome.fatal msgFolder ∧
    (loop env (k + 1) i st).1.trace =
      st.trace ++ [.stat folderName, .mkdir folderName 0o755, .fatal msgFolder] ∧
    createdPaths (loop env (k + 1) i st).1.trace = createdPaths st.trace ∧
    capturedRects (loop env (k + 1) i st).1.trace = capturedRects st.trace ∧
    encodedFiles (loop env (k + 1) i st).1.trace = encodedFiles st.trace ∧
    (loop env (k + 1) i st).1.fs = st.fs := by
  have h := iteration_fatal env i st hf hm
  have e : loop env (k + 1) i st =
      (⟨st.fs, st.trace ++ [.stat folderName, .mkdir folderName 0o755, .fatal msgFolder],
        st.deferred⟩, Outcome.fatal msgFolder) := by
    rw [loop_succ_of_some env k i st (.fatal msgFolder) (by rw [h]), h]
  rw [e]
  simp [createdPaths_append, createdPaths, capturedRects_append, capturedRects,
    encodedFiles_append, encodedFiles]

/-- C5 in a world of two displays where `os.Mkdir` fails: the run of `main` ends
in the first iteration with the fatal error and neither creates a file nor
captures anything. -/
theorem C5_mkdir_failure_is_fatal_witness :
    (State.mk emptyFS [] []).fs.folder = .absent ∧ mkdirFailEnv.MkdirFails 0 = true ∧
    main mkdirFailEnv emptyFS = loop mkdirFailEnv (1 + 1) 0 ⟨emptyFS, [], []⟩ ∧
    (loop mkdirFailEnv (1 + 1) 0 ⟨emptyFS, [], []⟩).2 = Outcome.fatal msgFolder ∧
    createdPaths (loop mkdirFailEnv (1 + 1) 0 ⟨emptyFS, [], []⟩).1.trace = createdPaths [] ∧
    capturedRects (loop mkdirFailEnv (1 + 1) 0 ⟨emptyFS, [], []⟩).1.trace = capturedRects [] :=
  ⟨rfl, rfl, rfl,
    (C5_mkdir_failure_is_fatal mkdirFailEnv 1 0 ⟨emptyFS, [], []⟩ rfl rfl).1,
    (C5_mkdir_failure_is_fatal mkdirFailEnv 1 0 ⟨emptyFS, [], []⟩ rfl rfl).2.2.1,
    (C5_mkdir_failure_is_fatal mkdirFailEnv 1 0 ⟨emptyFS, [], []⟩ rfl rfl).2.2.2.1⟩

/-! ## The claims on whole runs -/

/-- C3: for every number `N ≥ 0` of active displays, a run of `main` in which
no step fails returns normally and creates exactly `N` output files, one per
display, in the order of the display indices `0, ..., N-1`: the `os.Create`
calls are those of the paths of the displays in that order, the `i`-th path
starts with `img/` and the decimal index `i`, the paths are pairwise different,
each file holds the picture captured for its display, and no other file comes
into being.  (For `N = 0` the premises hold trivially, and the lists of created
files and of captures are empty.) -/
theorem C3_one_file_per_display (env : Env) (fs : FS) (N : Nat)
    (hN : env.NumActiveDisplays = N)
    (hdir : fs.folder = .absent → env.MkdirFails 0 = false)
    (hcreate : ∀ j, j < N → env.CreateFails j = false)
    (hcap : ∀ j, j < N → captureFails env j = false)
    (henc : ∀ j, j < N → env.EncodeFails j = false) :
    (main env fs).2 = Outcome.returned ∧
    createdPaths (main env fs).1.trace = (List.range N).map (pathOf env) ∧
    (createdPaths (main env fs).1.trace).length = N ∧
    (createdPaths (main env fs).1.trace).Nodup ∧
    (capturedRects (main env fs).1.trace).length = N ∧
    (∀ i, i < N → ∃ rest, pathOf env i = "img/".toList ++ decimal i ++ '_' :: rest) ∧
    (∀ i, i < N → ∃ img, env.CaptureRect i (trimmed (env.GetDisplayBounds i)) = .ok img ∧
      (main env fs).1.fs.read (pathOf env i) = some (.png img)) ∧
    (∀ p, ((main env fs).1.fs.read p).isSome →
      (fs.read p).isSome ∨ ∃ i, i < N ∧ p = pathOf env i) ∧
    (N = 0 → (main env fs).1.trace = [] ∧ (main env fs).1.fs = fs) := by
  have hmain := main_ok env fs N hN hdir hcap
  have hc' : ∀ j, 0 ≤ j → j < 0 + N → captureFails env j = false :=
    fun j _ h => hcap j (by omega)
  obtain ⟨t1, t2, -⟩ := steps_trace env N 0 ⟨fs, [], []⟩ hdir hc'
  obtain ⟨r1, r2, r3, -⟩ := runDeferred_facts (steps env N 0 ⟨fs, [], []⟩)
  have hcreated : createdPaths (main env fs).1.trace = (List.range N).map (pathOf env) := by
    rw [hmain]
    simp only
    rw [r2, t1, List.range_eq_range']
    simp [createdPaths]
  refine ⟨by rw [hmain], hcreated, by rw [hcreated]; simp, by
    rw [hcreated]; exact pathOf_nodup env N, ?_, fun i _ => pathOf_starts env i, ?_, ?_, ?_⟩
  · rw [hmain]
    simp only
    rw [r3, t2]
    simp [capturedRects]
  · intro i hi
    obtain ⟨img, h1, h2⟩ := steps_read_new env N 0 ⟨fs, [], []⟩ hdir hc' i (Nat.zero_le _)
      (by omega) (hcreate i hi)
    refine ⟨img, h1, ?_⟩
    rw [hmain]
    simp only
    rw [r1, h2, henc i hi]
    rfl
  · intro p hp
    rw [hmain] at hp
    simp only at hp
    rw [r1] at hp
    rcases steps_read_only env N 0 ⟨fs, [], []⟩ hdir hc' p hp with h | ⟨j, -, h2, h3⟩
    · exact Or.inl h
    · exact Or.inr ⟨j, by omega, h3⟩
  · intro h0
    subst h0
    rw [hmain]
    simp [steps, runDeferred]

/-- C3 in the world of two displays where nothing fails (two files, `img/0_...`
then `img/1_...`) and in a world without displays (no call at all). -/
theorem C3_one_file_per_display_witness :
    sampleEnv.NumActiveDisplays = (2 : Nat) ∧
    (main sampleEnv emptyFS).2 = Outcome.returned ∧
    createdPaths (main sampleEnv emptyFS).1.trace = (List.range 2).map (pathOf sampleEnv) ∧
    (List.range 2).map (pathOf sampleEnv) =
      ["img/0_2024-03-05_14H07M22S.png".toList, "img/1_2024-03-05_14H07M22S.png".toList] ∧
    zeroEnv.NumActiveDisplays = (0 : Nat) ∧
    createdPaths (main zeroEnv emptyFS).1.trace = (List.range 0).map (pathOf zeroEnv) ∧
    (capturedRects (main zeroEnv emptyFS).1.trace).length = 0 ∧
    (main zeroEnv emptyFS).1.trace = [] :=
  ⟨rfl,
    (C3_one_file_per_display sampleEnv emptyFS 2 rfl (fun _ => rfl) (fun _ _ => rfl)
      (by decide) (fun _ _ => rfl)).1,
    (C3_one_file_per_display sampleEnv emptyFS 2 rfl (fun _ => rfl) (fun _ _ => rfl)
      (by decide) (fun _ _ => rfl)).2.1,
    by decide, rfl,
    (C3_one_file_per_display zeroEnv emptyFS 0 rfl (fun _ => rfl) (fun _ _ => rfl)
      (by decide) (fun _ _ => rfl)).2.1,
    (C3_one_file_per_display zeroEnv emptyFS 0 rfl (fun _ => rfl) (fun _ _ => rfl)
      (by decide) (fun _ _ => rfl)).2.2.2.2.1,
    by decide⟩

/-- C8, as stated, fails: in the world `createAndCaptureFailEnv` the file of
display 0 cannot be created, which `main` ignores, and the capture is invoked;
the capture fails as well, the run ends in its panic, and display 1 is not
processed. -/
theorem C8_counterexample_capture_fails_too :
    createAndCaptureFailEnv.NumActiveDisplays = 2 ∧
    createAndCaptureFailEnv.CreateFails 0 = true ∧
    (main createAndCaptureFailEnv emptyFS).2 = Outcome.panic "capture failed" ∧
    capturedRects (main createAndCaptureFailEnv emptyFS).1.trace = [⟨⟨0, 0⟩, ⟨1920, 1030⟩⟩] ∧
    createdPaths (main createAndCaptureFailEnv emptyFS).1.trace =
      [pathOf createAndCaptureFailEnv 0] ∧
    pathOf createAndCaptureFailEnv 1 ∉
      createdPaths (main createAndCaptureFailEnv emptyFS).1.trace :=
  ⟨rfl, rfl, by decide, by decide, by decide, by decide⟩

/-- C8, amended: a failure of `os.Create` or of `png.Encode` is ignored.  In the
iteration of any display `i` that gets past the folder check and in which one
of the two fails, `main` does not end through a logged fatal error, the capture
of that display is invoked all the same, and, provided that capture succeeds,
the loop goes on with display `i + 1`; the iteration ends the run only when the
capture itself fails, with the panic of `screenShot`.  For whole runs: whatever
the two answer for whichever display, a run in which the folder can be made and
the captures succeed returns normally; for every display, in index order, the
file creation is attempted, the capture is invoked, and `png.Encode` is called
with the handle `os.Create` gave (nil when it failed). -/
theorem C8_write_failures_ignored (env : Env) :
    (∀ (k i : Nat) (st : State),
      (st.fs.folder = .absent → env.MkdirFails i = false) →
      (env.CreateFails i = true ∨ env.EncodeFails i = true) →
        capturedRects (iteration env i st).1.trace =
          capturedRects st.trace ++ [trimmed (env.GetDisplayBounds i)] ∧
        (∀ msg, (iteration env i st).2 ≠ some (.fatal msg)) ∧
        (captureFails env i = false →
          (iteration env i st).2 = none ∧
          loop env (k + 1) i st = loop env k (i + 1) (iteration env i st).1) ∧
        (captureFails env i = true →
          ∃ err, env.CaptureRect i (trimmed (env.GetDisplayBounds i)) = .error err ∧
            (iteration env i st).2 = some (.panic err))) ∧
    (∀ (fs : FS) (N : Nat), env.NumActiveDisplays = N →
      (fs.folder = .absent → env.MkdirFails 0 = false) →
      (∀ j, j < N → captureFails env j = false) →
        (main env fs).2 = Outcome.returned ∧
        createdPaths (main env fs).1.trace = (List.range N).map (pathOf env) ∧
        capturedRects (main env fs).1.trace =
          (List.range N).map (fun j => trimmed (env.GetDisplayBounds j)) ∧
        encodedFiles (main env fs).1.trace =
          (List.range N).map
            (fun j => if env.CreateFails j then none else some (pathOf env j))) := by
  constructor
  · intro k i st hd _
    cases hc : captureFails env i with
    | false =>
      obtain ⟨h1, -, -, -, h5, -⟩ := iteration_ok_facts env i st hd hc
      refine ⟨h5, ?_, fun _ => ⟨h1, loop_succ_of_none env k i st h1⟩, ?_⟩
      · intro msg
        rw [h1]
        simp
      · intro h
        cases h
    | true =>
      obtain ⟨err, herr⟩ := captureFails_true hc
      obtain ⟨info, he⟩ := iteration_panic env i st err hd herr
      refine ⟨?_, ?_, ?_, fun _ => ⟨err, herr, by rw [he]⟩⟩
      · rw [he]
        by_cases hf : st.fs.folder = .absent <;>
          simp [capturedRects_append, capturedRects, capturedRects_close, hf]
      · intro msg
        rw [he]
        simp
      · intro h
        cases h
  · intro fs N hN hdir hcap
    have hmain := main_ok env fs N hN hdir hcap
    obtain ⟨t1, t2, t3⟩ :=
      steps_trace env N 0 ⟨fs, [], []⟩ hdir (fun j _ h => hcap j (by omega))
    obtain ⟨-, r2, r3, -, r5⟩ := runDeferred_facts (steps env N 0 ⟨fs, [], []⟩)
    refine ⟨?_, ?_, ?_, ?_⟩
    · rw [hmain]
    · rw [hmain]
      simp only
      rw [r2, t1, List.range_eq_range']
      simp [createdPaths]
    · rw [hmain]
      simp only
      rw [r3, t2, List.range_eq_range']
      simp [capturedRects]
    · rw [hmain]
      simp only
      rw [r5, t3, List.range_eq_range']
      simp [encodedFiles]

/-- C8, amended, in the world of two displays where every `os.Create` and every
`png.Encode` fails: the run returns normally, both displays are captured, and
the loop goes from display 0 on to display 1. -/
theorem C8_write_failures_ignored_witness :
    writeFailEnv.NumActiveDisplays = (2 : Nat) ∧
    writeFailEnv.CreateFails 0 = true ∧ writeFailEnv.EncodeFails 0 = true ∧
    captureFails writeFailEnv 0 = false ∧
    (main writeFailEnv emptyFS).2 = Outcome.returned ∧
    capturedRects (main writeFailEnv emptyFS).1.trace =
      (List.range 2).map (fun j => trimmed (writeFailEnv.GetDisplayBounds j)) ∧
    (List.range 2).map (fun j => trimmed (writeFailEnv.GetDisplayBounds j)) =
      [⟨⟨0, 0⟩, ⟨1920, 1030⟩⟩, ⟨⟨0, 0⟩, ⟨1920, 1030⟩⟩] ∧
    (main writeFailEnv emptyFS).1.fs.files = [] ∧
    capturedRects (iteration writeFailEnv 0 ⟨emptyFS, [], []⟩).1.trace =
      capturedRects [] ++ [trimmed (writeFailEnv.GetDisplayBounds 0)] ∧
    loop writeFailEnv (1 + 1) 0 ⟨emptyFS, [], []⟩ =
      loop writeFailEnv 1 (0 + 1) (iteration writeFailEnv 0 ⟨emptyFS, [], []⟩).1 :=
  ⟨rfl, rfl, rfl, by decide,
    ((C8_write_failures_ignored writeFailEnv).2 emptyFS 2 rfl (fun _ => rfl) (by decide)).1,
    ((C8_write_failures_ignored writeFailEnv).2 emptyFS 2 rfl (fun _ => rfl)
      (by decide)).2.2.1,
    by decide, by decide,
    ((C8_write_failures_ignored writeFailEnv).1 1 0 ⟨emptyFS, [], []⟩ (fun _ => rfl)
      (Or.inl rfl)).1,
    (((C8_write_failures_ignored writeFailEnv).1 1 0 ⟨emptyFS, [], []⟩ (fun _ => rfl)
      (Or.inl rfl)).2.2.1 (by decide)).2⟩

/-- C10, as stated, fails: in the world `lostFileEnv` the first capture to fail
is that of display 1, yet at termination there is no file for display 0,
because its `os.Create` failed and `main` drops that error. -/
theorem C10_counterexample_create_failed :
    lostFileEnv.NumActiveDisplays = 2 ∧
    captureFails lostFileEnv 0 = false ∧ captureFails lostFileEnv 1 = true ∧
    lostFileEnv.CreateFails 0 = true ∧
    (main lostFileEnv emptyFS).2 = Outcome.panic "capture failed" ∧
    createdPaths (main lostFileEnv emptyFS).1.trace =
      [pathOf lostFileEnv 0, pathOf lostFileEnv 1] ∧
    (main lostFileEnv emptyFS).1.fs.read (pathOf lostFileEnv 0) = none ∧
    (main lostFileEnv emptyFS).1.fs.read (pathOf lostFileEnv 1) = some Content.empty :=
  ⟨rfl, by decide, by decide, rfl, by decide, by decide, by decide, by decide⟩

/-- C10, amended: in every iteration the creation of the output file is
attempted before the capture is attempted.  If the first capture to fail is
that of display `k` (the run having got that far), the run ends in the panic of
that capture; the last calls before the deferred `Close` calls and the panic are
the `os.Create` of the file of display `k` and then the capture; `os.Create` has
been called for the files of the displays `0, ..., k`, in order, and
`png.Encode` only for those before `k`; at termination every one of these files
whose `os.Create` did not fail exists, and the file of display `k`, if its
`os.Create` did not fail, is empty. -/
theorem C10_file_created_before_capture (env : Env) (fs : FS) (N k : Nat)
    (hN : env.NumActiveDisplays = N) (hk : k < N)
    (hdir : fs.folder = .absent → env.MkdirFails 0 = false)
    (hcap : ∀ j, j < k → captureFails env j = false)
    (hfail : captureFails env k = true) :
    ∃ (err : String) (pre : List Event) (handles : List (Option GoString)),
      (main env fs).2 = Outcome.panic err ∧
      (main env fs).1.trace =
        pre ++ (.create (pathOf env k) :: .capture (trimmed (env.GetDisplayBounds k)) ::
          (handles.map Event.close ++ [.panic err])) ∧
      createdPaths (main env fs).1.trace = (List.range (k + 1)).map (pathOf env) ∧
      capturedRects (main env fs).1.trace =
        (List.range (k + 1)).map (fun j => trimmed (env.GetDisplayBounds j)) ∧
      encodedFiles (main env fs).1.trace =
        (List.range k).map (fun j => if env.CreateFails j then none else some (pathOf env j)) ∧
      (∀ j, j ≤ k → env.CreateFails j = false →
        ((main env fs).1.fs.read (pathOf env j)).isSome) ∧
      (env.CreateFails k = false →
        (main env fs).1.fs.read (pathOf env k) = some Content.empty) := by
  obtain ⟨err, herr⟩ := captureFails_true hfail
  obtain ⟨pre0, folder, hmain, p1, p2, p3⟩ := main_panic env fs N k hN hk hdir hcap err herr
  have hc' : ∀ j, 0 ≤ j → j < 0 + k → captureFails env j = false :=
    fun j _ h => hcap j (by omega)
  obtain ⟨t1, t2, t3⟩ := steps_trace env k 0 ⟨fs, [], []⟩ hdir hc'
  refine ⟨err, (steps env k 0 ⟨fs, [], []⟩).trace ++ pre0,
    (if env.CreateFails k then none else some (pathOf env k)) ::
      (steps env k 0 ⟨fs, [], []⟩).deferred, by rw [hmain], by rw [hmain],
    ?_, ?_, ?_, ?_, ?_⟩
  · rw [hmain]
    simp only [createdPaths_append, createdPaths, createdPaths_close, t1, p1,
      List.range_eq_range', List.range'_concat, List.map_append]
    simp [createdPaths_append, createdPaths_close, createdPaths]
  · rw [hmain]
    simp only [capturedRects_append, capturedRects, capturedRects_close, t2, p2,
      List.range_eq_range', List.range'_concat, List.map_append]
    simp [capturedRects_append, capturedRects_close, capturedRects]
  · rw [hmain]
    simp only [encodedFiles_append, encodedFiles, encodedFiles_close, t3, p3,
      List.range_eq_range']
    simp [encodedFiles_append, encodedFiles_close, encodedFiles]
  · intro j hj hcf
    rw [hmain]
    simp only [FS.read]
    by_cases hjk : j = k
    · subst hjk
      simp [hcf, List.lookup_cons]
    · obtain ⟨img, -, h2⟩ := steps_read_new env k 0 ⟨fs, [], []⟩ hdir hc' j (Nat.zero_le _)
        (by omega) hcf
      have hne : (pathOf env j == pathOf env k) = false := by
        simpa using fun e => hjk (pathOf_inj env e)
      unfold FS.read at h2
      cases env.CreateFails k <;> simp [List.lookup_cons, hne, h2]
  · intro hcf
    rw [hmain]
    simp [FS.read, hcf, List.lookup_cons]

/-- C10, amended, in the world of two displays where the capture of the second fails: both
files have been created, the first holds its picture, the second is empty. -/
theorem C10_file_created_before_capture_witness :
    secondFailEnv.NumActiveDisplays = (2 : Nat) ∧ captureFails secondFailEnv 1 = true ∧
    (∃ (err : String) (pre : List Event) (handles : List (Option GoString)),
      (main secondFailEnv emptyFS).2 = Outcome.panic err ∧
      (main secondFailEnv emptyFS).1.trace =
        pre ++ (.create (pathOf secondFailEnv 1) ::
          .capture (trimmed (secondFailEnv.GetDisplayBounds 1)) ::
          (handles.map Event.close ++ [.panic err])) ∧
      createdPaths (main secondFailEnv emptyFS).1.trace =
        (List.range (1 + 1)).map (pathOf secondFailEnv) ∧
      capturedRects (main secondFailEnv emptyFS).1.trace =
        (List.range (1 + 1)).map (fun j => trimmed (secondFailEnv.GetDisplayBounds j)) ∧
      encodedFiles (main secondFailEnv emptyFS).1.trace =
        (List.range 1).map
          (fun j => if secondFailEnv.CreateFails j then none
            else some (pathOf secondFailEnv j)) ∧
      (∀ j, j ≤ 1 → secondFailEnv.CreateFails j = false →
        ((main secondFailEnv emptyFS).1.fs.read (pathOf secondFailEnv j)).isSome) ∧
      (secondFailEnv.CreateFails 1 = false →
        (main secondFailEnv emptyFS).1.fs.read (pathOf secondFailEnv 1) =
          some Content.empty)) ∧
    (main secondFailEnv emptyFS).1.fs.files =
      [("img/1_2024-03-05_14H07M22S.png".toList, Content.empty),
        ("img/0_2024-03-05_14H07M22S.png".toList,
          Content.png ⟨⟨⟨0, 0⟩, ⟨1920, 1030⟩⟩, []⟩),
        ("img/0_2024-03-05_14H07M22S.png".toList, Content.empty)] :=
  ⟨rfl, by decide,
    C10_file_created_before_capture secondFailEnv emptyFS 2 1 rfl (by decide) (fun _ => rfl)
      (by decide) (by decide),
    by decide⟩

/-- C6, as stated, fails twice.  In a world without active displays the run from
an absent folder returns normally, never calls `os.Mkdir`, and leaves the folder
absent.  And in a world of two displays whose umask is `077` the run makes the
folder with mode `0700`, not `0755`. -/
theorem C6_counterexample_no_display_or_umask :
    (zeroEnv.NumActiveDisplays = 0 ∧ emptyFS.folder = FolderState.absent ∧
      (main zeroEnv emptyFS).2 = Outcome.returned ∧
      (main zeroEnv emptyFS).1.fs.folder = FolderState.absent ∧
      mkdirCalls (main zeroEnv emptyFS).1.trace = []) ∧
    (strictUmaskEnv.NumActiveDisplays = 2 ∧ strictUmaskEnv.Umask = 0o077 ∧
      (main strictUmaskEnv emptyFS).2 = Outcome.returned ∧
      (main strictUmaskEnv emptyFS).1.fs.folder = FolderState.present 0o700 ∧
      (main strictUmaskEnv emptyFS).1.fs.folder ≠ FolderState.present 0o755) :=
  ⟨⟨rfl, rfl, by decide, by decide, by decide⟩,
    ⟨rfl, rfl, by decide, by decide, by decide⟩⟩

/-- C6, amended: for every run of `main` with at least one active display that
returns normally starting with `img/` absent, `img/` exists afterwards, made by
exactly one call `os.Mkdir("img/", 0755)`; its mode is `0755` less the bits the
umask of the process clears, and so `0755` when the umask clears none of them.
And for every run starting with `img/` present, `os.Mkdir` is never called, the
run does not end on the folder error, and the folder is left as it was. -/
theorem C6_folder_auto_creation (env : Env) (fs : FS) :
    (1 ≤ env.NumActiveDisplays → fs.folder = .absent → (main env fs).2 = Outcome.returned →
      (main env fs).1.fs.folder = .present (maskedPerm 0o755 env.Umask) ∧
      mkdirCalls (main env fs).1.trace = [(folderName, 0o755)] ∧
      (0o755 &&& env.Umask = 0 → (main env fs).1.fs.folder = .present 0o755)) ∧
    (∀ m, fs.folder = .present m →
      mkdirCalls (main env fs).1.trace = [] ∧
      (main env fs).2 ≠ Outcome.fatal msgFolder ∧
      (main env fs).1.fs.folder = .present m) := by
  constructor
  · intro hn hf hret
    obtain ⟨k, hk⟩ : ∃ k, env.NumActiveDisplays.toNat = k + 1 :=
      ⟨env.NumActiveDisplays.toNat - 1, by omega⟩
    unfold main at hret ⊢
    rw [hk] at hret ⊢
    cases hm : env.MkdirFails 0 with
    | true =>
      exfalso
      have h := iteration_fatal env 0 ⟨fs, [], []⟩ hf hm
      rw [loop_succ_of_some env k 0 ⟨fs, [], []⟩ (.fatal msgFolder) (by rw [h])] at hret
      cases hret
    | false =>
      obtain ⟨h1, h2⟩ := loop_absent_facts env k 0 ⟨fs, [], []⟩ hf hm
      refine ⟨h1, by simpa [mkdirCalls] using h2, fun hu => ?_⟩
      rw [h1, maskedPerm_of_disjoint _ _ hu]
  · intro m hf
    have hne : (State.mk fs [] []).fs.folder ≠ .absent := by
      simp [hf]
    obtain ⟨h1, h2, h3⟩ := loop_folder_keep env env.NumActiveDisplays.toNat 0 ⟨fs, [], []⟩ hne
    unfold main
    exact ⟨by simpa [mkdirCalls] using h2, h3, by rw [h1]; exact hf⟩

/-- C6, amended, in the world of two displays with umask `022`: from an empty
working directory the folder is made with mode 0755, from one that has the
folder it is not made again. -/
theorem C6_folder_auto_creation_witness :
    (1 ≤ sampleEnv.NumActiveDisplays ∧ emptyFS.folder = .absent ∧
      (main sampleEnv emptyFS).2 = Outcome.returned ∧ 0o755 &&& sampleEnv.Umask = 0 ∧
      mkdirCalls (main sampleEnv emptyFS).1.trace = [(folderName, 0o755)] ∧
      (main sampleEnv emptyFS).1.fs.folder = .present 0o755) ∧
    (presentFS.folder = .present 0o755 ∧
      mkdirCalls (main sampleEnv presentFS).1.trace = [] ∧
      (main sampleEnv presentFS).2 ≠ Outcome.fatal msgFolder ∧
      (main sampleEnv presentFS).1.fs.folder = .present 0o755) :=
  ⟨⟨by decide, rfl, by decide, by decide,
      ((C6_folder_auto_creation sampleEnv emptyFS).1 (by decide) rfl (by decide)).2.1,
      ((C6_folder_auto_creation sampleEnv emptyFS).1 (by decide) rfl (by decide)).2.2
        (by decide)⟩,
    ⟨rfl, (C6_folder_auto_creation sampleEnv presentFS).2 0o755 rfl⟩⟩

end Screenshot
